import Mathlib

/-!
Verification of the molino IMAP4 parsing engine (src/imap4/parser): a shallow
embedding of the line scanner (scanner.c) and the response parser (parser.c),
with theorems checking the natural-language specification against the code.

Bytes are modelled as natural numbers (the C code only ever compares bytes
against ASCII values in 0..127; bytes above 127 behave as "no match" in every
comparison, which the embedding reproduces).
-/

namespace Molino

/-! ## Scanner (src/imap4/parser/scanner.c)

The `Scanner` struct holds `buf` (with `buflen` = `buf.length`), `start_find`
and `literal_left`.  The capacity field `bufcap` only matters for the
reallocation performed by `Scanner_feed`; it is modelled separately by
`feedStep` below so that the allocation-failure path of `Scanner_feed`
(scanner.c lines 49-58) can be examined exactly.
-/

structure Scanner where
  buf : List Nat
  start_find : Nat
  literal_left : Nat
deriving DecidableEq

inductive ScanErr where
  | incompleteLine
  | incompleteLiteral
  | badLiteralLength
  | tooMany
deriving DecidableEq

/-- `isdigit` on a byte. -/
def isDigitByte (b : Nat) : Bool := 48 ≤ b && b ≤ 57

/-- Index of the first CRLF pair (entirely inside the list), if any:
`memmem(buf, len, CRLF, 2)`. -/
def findCRLF : List Nat → Option Nat
  | [] => none
  | [_] => none
  | b1 :: b2 :: rest =>
    if b1 = 13 ∧ b2 = 10 then some 0 else (findCRLF (b2 :: rest)).map (· + 1)

/-- `memmem(buf + start, len - start, CRLF, 2)` as an absolute index. -/
def findCRLFFrom (buf : List Nat) (start : Nat) : Option Nat :=
  (findCRLF (buf.drop start)).map (· + start)

/-- The backwards digit scan of `Scanner_get` (scanner.c lines 97-98):
`while (p > buf && isdigit(*(p - 1))) p--;` starting from index `e`. -/
def backDigits (buf : List Nat) : Nat → Nat
  | 0 => 0
  | p + 1 => if isDigitByte (buf.getD p 0) then backDigits buf p else p + 1

/-- Value of a decimal digit string (how `strtoul` and the digit loop of
`_parse_number` accumulate it). -/
def digitsVal (l : List Nat) : Nat := l.foldl (fun a b => a * 10 + (b - 48)) 0

/-- `ULONG_MAX` / `ULLONG_MAX` on the 64-bit platforms the module targets. -/
def U64MAX : Nat := 2 ^ 64 - 1

/-- The literal-splice test of `Scanner_get` (scanner.c lines 93-105) at a CRLF
found at index `c`: if the byte before the CRLF is `}` preceded by one or more
decimal digits preceded by `{`, the digit value, else `none`. -/
def spliceLen (buf : List Nat) (c : Nat) : Option Nat :=
  if c ≠ 0 ∧ buf.getD (c - 1) 0 = 125 then
    let p := backDigits buf (c - 1)
    if p = 0 ∨ buf.getD (p - 1) 0 ≠ 123 ∨ p = c - 1 then
      none
    else
      some (digitsVal ((buf.drop p).take (c - 1 - p)))
  else
    none

/-- The `while (1)` loop of `Scanner_get` (scanner.c lines 70-110), acting on
`(start_find, literal_left)`.  On success the result carries the index of the
terminating CR.  The two non-error outcomes of the literal skip (lines 71-82)
are merged: when the partial-skip guard fails, `start + lit` is the post-skip
cursor (`lit = 0` leaves the cursor unchanged).  The loop advances
`start_find` by at least 2 whenever it iterates again, so the
`buf.length + 1` fuel supplied by `Scanner_get` can never run out; the fuel-0
branch is unreachable. -/
def scanGetLoop (buf : List Nat) : Nat → Nat → Nat → (Nat × Nat) × Except ScanErr Nat
  | 0, start, lit => ((start, lit), .error .incompleteLine)
  | fuel + 1, start, lit =>
    if 0 < lit ∧ buf.length - start < lit then
      ((start + (buf.length - start), lit - (buf.length - start)), .error .incompleteLiteral)
    else
      match findCRLFFrom buf (start + lit) with
      | none =>
        ((if 0 < buf.length then buf.length - 1 else start + lit, 0), .error .incompleteLine)
      | some c =>
        match spliceLen buf c with
        | none => ((c, 0), .ok c)
        | some len =>
          if U64MAX < len then ((start + lit, 0), .error .badLiteralLength)
          else scanGetLoop buf fuel (c + 2) len

/-- `Scanner_get` (scanner.c lines 65-123).  On success the returned view is
`buf[0 .. crlf + 2)` and `start_find` is left at the CR. -/
def Scanner_get (s : Scanner) : Scanner × Except ScanErr (List Nat) :=
  match scanGetLoop s.buf (s.buf.length + 1) s.start_find s.literal_left with
  | ((st, lt), .ok c) => (⟨s.buf, st, lt⟩, .ok (s.buf.take (c + 2)))
  | ((st, lt), .error e) => (⟨s.buf, st, lt⟩, .error e)

/-- The successful path of `Scanner_feed` (scanner.c lines 49-62): append the
fed bytes; `start_find` and `literal_left` are untouched. -/
def Scanner_feed (s : Scanner) (data : List Nat) : Scanner :=
  ⟨s.buf ++ data, s.start_find, s.literal_left⟩

/-- `Scanner_consume` (scanner.c lines 125-143). -/
def Scanner_consume (s : Scanner) (n : Nat) : Scanner × Except ScanErr Unit :=
  if n > s.buf.length then (s, .error .tooMany)
  else (⟨s.buf.drop n, 0, 0⟩, .ok ())

/-- The size bookkeeping of `Scanner_feed` (scanner.c lines 49-58), including
the reallocation: from `(buflen, bufcap)` and the fed length, the new
`(buflen, bufcap)` and whether the call succeeded.  `allocFails` tells whether
`PyMem_RawRealloc` returns `NULL`.  Note the C code increments `self->buflen`
before checking the capacity and does not undo the increment on failure. -/
def feedStep (buflen bufcap : Nat) (len : Nat) (allocFails : Bool) : (Nat × Nat) × Bool :=
  let buflen1 := buflen + len
  if buflen1 > bufcap then
    if allocFails then ((buflen1, bufcap), false)
    else ((buflen1, buflen1), true)
  else ((buflen1, bufcap), true)

/-! ## Parser (src/imap4/parser/parser.c)

Parse functions are embedded in suffix-passing style: a function takes the
unread remainder of the byte view and returns the parsed value together with
the remainder left after it, `cur` in the C code being the count of bytes
already consumed.  `PyErr`-carrying `NULL` returns become `Except PErr`. -/

inductive PErr where
  | truncated
  | expectedChar (c : Nat)
  | expectedStr (s : List Nat)
  | nothingToParse
  | trailing
  | emptySpan
  | emptyAtom
  | emptyAstring
  | invalidQuotedChar
  | invalidString
  | numberOverflow
  | expectedNumber
  | literalLengthOverflow
  | unknownEsearchReturn
  | unknownStatusItem
  | unknownMessageData
  | unknownFetchItem
  | unknownUntagged
  | unknownTagged
  | invalidDate
  | notAscii
  | fuelOut
deriving DecidableEq

def strBytes (s : String) : List Nat := s.toList.map Char.toNat

/-- The `PEEKC()` macro (parser.c lines 226-232). -/
def peekc : List Nat → Except PErr Nat
  | [] => .error .truncated
  | b :: _ => .ok b

/-- The `GETC()` macro (parser.c lines 234-240). -/
def getc : List Nat → Except PErr (Nat × List Nat)
  | [] => .error .truncated
  | b :: rest => .ok (b, rest)

/-- The `EXPECTC(c)` macro (parser.c lines 254-264). -/
def expectc (c : Nat) : List Nat → Except PErr (List Nat)
  | [] => .error .truncated
  | b :: rest => if b = c then .ok rest else .error (.expectedChar c)

/-- The `EXPECTS(s)` macro (parser.c lines 279-290). -/
def expects (s : List Nat) (v : List Nat) : Except PErr (List Nat) :=
  if v.length < s.length then .error .truncated
  else if v.take s.length ≠ s then .error (.expectedStr s)
  else .ok (v.drop s.length)

/-- `bufcspn` (parser.c lines 292-312): the maximal run of bytes in
`0x01..0x7f` not in the reject table.  (`char` is signed, so bytes above 127
fail the `*p >= '\x01'` test.) -/
def bufcspn (reject : Nat → Bool) (v : List Nat) : Except PErr (List Nat × List Nat) :=
  match v with
  | [] => .error .truncated
  | _ =>
    let run := v.takeWhile (fun b => 1 ≤ b && b ≤ 127 && !(reject b))
    .ok (run, v.drop run.length)

/-- `parse_cspn` (parser.c lines 314-326). -/
def parse_cspn (reject : Nat → Bool) (v : List Nat) : Except PErr (List Nat × List Nat) := do
  let (run, v1) ← bufcspn reject v
  if run = [] then .error .emptySpan else .ok (run, v1)

/-- `atom_specials` table (parser.c lines 9-24). -/
def atom_specials (b : Nat) : Bool :=
  [40, 41, 123, 32, 37, 42, 34, 92, 93, 127].contains b || (1 ≤ b && b ≤ 31)

/-- `astring_reject` table (parser.c lines 27-41): like `atom_specials` but
permitting `]`. -/
def astring_reject (b : Nat) : Bool :=
  [40, 41, 123, 32, 37, 42, 34, 92, 127].contains b || (1 ≤ b && b ≤ 31)

/-- `date_time_reject` table (parser.c lines 43-46). -/
def date_time_reject (b : Nat) : Bool := [13, 10, 34, 92].contains b

/-- `resp_text_code_reject` table (parser.c lines 49-51). -/
def resp_text_code_reject (b : Nat) : Bool := [13, 10, 93].contains b

/-- `section_spec_reject` table (parser.c lines 53-55). -/
def section_spec_reject (b : Nat) : Bool := [13, 10, 93].contains b

/-- `text_reject` table (parser.c lines 58-60). -/
def text_reject (b : Nat) : Bool := [13, 10].contains b

/-- `tag_reject` table (parser.c lines 63-78): `astring_reject` plus `+`. -/
def tag_reject (b : Nat) : Bool :=
  [40, 41, 123, 32, 37, 42, 34, 92, 127, 43].contains b || (1 ≤ b && b ≤ 31)

/-- Token identifiers from tokens.h, as used by parser.c.  (`IMAP4_BODYSECTIONS`
is the synthetic identifier that keys the `BODY[section]` collection and is
never produced from input.) -/
inductive Token where
  | IMAP4_OK | IMAP4_NO | IMAP4_BAD | IMAP4_PREAUTH | IMAP4_BYE
  | IMAP4_CAPABILITY | IMAP4_ENABLED
  | IMAP4_FLAGS | IMAP4_LIST | IMAP4_LSUB | IMAP4_SEARCH | IMAP4_ESEARCH | IMAP4_STATUS
  | IMAP4_EXISTS | IMAP4_EXPUNGE | IMAP4_RECENT | IMAP4_FETCH
  | IMAP4_BODY | IMAP4_BODYSTRUCTURE | IMAP4_ENVELOPE | IMAP4_INTERNALDATE
  | IMAP4_MODSEQ | IMAP4_RFC822 | IMAP4_RFC822_HEADER | IMAP4_RFC822_TEXT
  | IMAP4_RFC822_SIZE | IMAP4_UID | IMAP4_X_GM_MSGID
  | IMAP4_MIN | IMAP4_MAX | IMAP4_ALL | IMAP4_COUNT
  | IMAP4_MESSAGES | IMAP4_UIDNEXT | IMAP4_UIDVALIDITY | IMAP4_UNSEEN
  | IMAP4_ALERT | IMAP4_PARSE | IMAP4_READ_ONLY | IMAP4_READ_WRITE
  | IMAP4_TRYCREATE | IMAP4_HIGHESTMODSEQ
  | IMAP4_BODYSECTIONS
deriving DecidableEq

def toUpperByte (b : Nat) : Nat := if 97 ≤ b ∧ b ≤ 122 then b - 32 else b

def lowerByte (b : Nat) : Nat := if 65 ≤ b ∧ b ≤ 90 then b + 32 else b

/-- The keyword table behind `imap4_token`. -/
def token_table : List (List Nat × Token) :=
  [(strBytes "OK", .IMAP4_OK), (strBytes "NO", .IMAP4_NO), (strBytes "BAD", .IMAP4_BAD),
   (strBytes "PREAUTH", .IMAP4_PREAUTH), (strBytes "BYE", .IMAP4_BYE),
   (strBytes "CAPABILITY", .IMAP4_CAPABILITY), (strBytes "ENABLED", .IMAP4_ENABLED),
   (strBytes "FLAGS", .IMAP4_FLAGS), (strBytes "LIST", .IMAP4_LIST),
   (strBytes "LSUB", .IMAP4_LSUB), (strBytes "SEARCH", .IMAP4_SEARCH),
   (strBytes "ESEARCH", .IMAP4_ESEARCH), (strBytes "STATUS", .IMAP4_STATUS),
   (strBytes "EXISTS", .IMAP4_EXISTS), (strBytes "EXPUNGE", .IMAP4_EXPUNGE),
   (strBytes "RECENT", .IMAP4_RECENT), (strBytes "FETCH", .IMAP4_FETCH),
   (strBytes "BODY", .IMAP4_BODY), (strBytes "BODYSTRUCTURE", .IMAP4_BODYSTRUCTURE),
   (strBytes "ENVELOPE", .IMAP4_ENVELOPE), (strBytes "INTERNALDATE", .IMAP4_INTERNALDATE),
   (strBytes "MODSEQ", .IMAP4_MODSEQ), (strBytes "RFC822", .IMAP4_RFC822),
   (strBytes "RFC822.HEADER", .IMAP4_RFC822_HEADER),
   (strBytes "RFC822.TEXT", .IMAP4_RFC822_TEXT),
   (strBytes "RFC822.SIZE", .IMAP4_RFC822_SIZE),
   (strBytes "UID", .IMAP4_UID), (strBytes "X-GM-MSGID", .IMAP4_X_GM_MSGID),
   (strBytes "MIN", .IMAP4_MIN), (strBytes "MAX", .IMAP4_MAX),
   (strBytes "ALL", .IMAP4_ALL), (strBytes "COUNT", .IMAP4_COUNT),
   (strBytes "MESSAGES", .IMAP4_MESSAGES), (strBytes "UIDNEXT", .IMAP4_UIDNEXT),
   (strBytes "UIDVALIDITY", .IMAP4_UIDVALIDITY), (strBytes "UNSEEN", .IMAP4_UNSEEN),
   (strBytes "ALERT", .IMAP4_ALERT), (strBytes "PARSE", .IMAP4_PARSE),
   (strBytes "READ-ONLY", .IMAP4_READ_ONLY), (strBytes "READ-WRITE", .IMAP4_READ_WRITE),
   (strBytes "TRYCREATE", .IMAP4_TRYCREATE),
   (strBytes "HIGHESTMODSEQ", .IMAP4_HIGHESTMODSEQ)]

/-- Modelled from the spec: `imap4_token` lives in generated code (tokens.h /
its gperf source) that is not part of the five C files; §4.1 of the spec fixes
its contract: a closed keyword set matched case-insensitively, everything else
reporting no match (`0`). -/
def imap4_token (s : List Nat) : Option Token :=
  (token_table.find? (fun kv => kv.1 == s.map toUpperByte)).map (fun kv => kv.2)

def isTokenChar (b : Nat) : Bool :=
  (65 ≤ b && b ≤ 90) || (97 ≤ b && b ≤ 122) || (48 ≤ b && b ≤ 57) || b == 46 || b == 45

/-- `parse_token` (parser.c lines 328-352): scan the maximal keyword-shaped
run; consume it only when the token table recognises it. -/
def parse_token (v : List Nat) : Except PErr (Option Token × List Nat) :=
  match v with
  | [] => .error .truncated
  | _ =>
    let run := v.takeWhile isTokenChar
    match imap4_token run with
    | some t => .ok (some t, v.drop run.length)
    | none => .ok (none, v)

/-- The digit-accumulation loop of `_parse_number` (parser.c lines 1874-1884),
returning the value and the number of digits consumed, or an error at the
first step whose result would exceed `ULLONG_MAX`. -/
def numScan : List Nat → Nat → Except Unit (Nat × Nat)
  | [], acc => .ok (acc, 0)
  | b :: rest, acc =>
    if isDigitByte b then
      let digit := b - 48
      if acc > U64MAX / 10 ∨ (acc = U64MAX / 10 ∧ digit > U64MAX % 10) then .error ()
      else
        match numScan rest (acc * 10 + digit) with
        | .ok (n, k) => .ok (n, k + 1)
        | .error e => .error e
    else .ok (acc, 0)

/-- `_parse_number` (parser.c lines 1860-1892). -/
def _parse_number (v : List Nat) : Except PErr (Nat × List Nat) :=
  match v with
  | [] => .error .truncated
  | _ =>
    match numScan v 0 with
    | .error _ => .error .numberOverflow
    | .ok (n, k) => if k = 0 then .error .expectedNumber else .ok (n, v.drop k)

/-- `parse_number` (parser.c lines 1897-1905). -/
def parse_number (v : List Nat) : Except PErr (Nat × List Nat) := _parse_number v

/-- `SSIZE_MAX` (`PY_SSIZE_T_MAX`) on a 64-bit platform. -/
def SSIZE_MAX : Nat := 2 ^ 63 - 1

/-- The quoted-string scan loop of `parse_string` (parser.c lines 2358-2384):
collect bytes until the closing quote, resolving `\` escapes; the result is
the collected content and the number of input bytes inspected (`p - start`).
The loop stops successfully only with the closing quote at the head of the
remainder. -/
def qLoop : List Nat → Except PErr (List Nat × Nat)
  | [] => .error .truncated
  | b :: rest =>
    if b = 34 then .ok ([], 0)
    else if b = 92 then
      match rest with
      | [] => .error .truncated
      | e :: rest2 =>
        if e ≠ 34 ∧ e ≠ 92 then .error .invalidQuotedChar
        else
          match qLoop rest2 with
          | .ok (content, k) => .ok (e :: content, k + 2)
          | .error x => .error x
    else
      match qLoop rest with
      | .ok (content, k) => .ok (b :: content, k + 1)
      | .error x => .error x

/-- `parse_string` (parser.c lines 2338-2422): quoted string or literal. -/
def parse_string (v : List Nat) : Except PErr (List Nat × List Nat) := do
  let (c, v1) ← getc v
  if c = 34 then
    match qLoop v1 with
    | .error e => .error e
    | .ok (content, k) => do
      let v2 ← expectc 34 (v1.drop k)
      .ok (content, v2)
  else if c = 123 then
    match _parse_number v1 with
    | .error e => .error e
    | .ok (n, v2) =>
      if n > SSIZE_MAX then .error .literalLengthOverflow
      else do
        let v3 ← expects [125, 13, 10] v2
        if v3.length < n then .error .truncated
        else .ok (v3.take n, v3.drop n)
  else .error .invalidString

def asciiOk (l : List Nat) : Bool := l.all (· ≤ 127)

/-- `parse_string_ascii` (parser.c lines 2427-2439): strict ASCII decode of the
string bytes. -/
def parse_string_ascii (v : List Nat) : Except PErr (List Nat × List Nat) := do
  let (b, v1) ← parse_string v
  if asciiOk b then .ok (b, v1) else .error .notAscii

/-- `parse_string_ascii_lower` (parser.c lines 2444-2461): `bytes.lower()`
(ASCII case folding) then strict ASCII decode. -/
def parse_string_ascii_lower (v : List Nat) : Except PErr (List Nat × List Nat) := do
  let (b, v1) ← parse_string v
  let lb := b.map lowerByte
  if asciiOk lb then .ok (lb, v1) else .error .notAscii

/-- `parse_nstring` (parser.c lines 1824-1836): `NIL` or a string. -/
def parse_nstring (v : List Nat) : Except PErr (Option (List Nat) × List Nat) := do
  let c ← peekc v
  if c = 78 then do
    let v1 ← expects (strBytes "NIL") v
    .ok (none, v1)
  else do
    let (b, v1) ← parse_string v
    .ok (some b, v1)

/-- `parse_nstring_ascii` (parser.c lines 1841-1855). -/
def parse_nstring_ascii (v : List Nat) : Except PErr (Option (List Nat) × List Nat) := do
  let (b?, v1) ← parse_nstring v
  match b? with
  | none => .ok (none, v1)
  | some b => if asciiOk b then .ok (some b, v1) else .error .notAscii

/-- `parse_astring` (parser.c lines 440-463). -/
def parse_astring (v : List Nat) : Except PErr (List Nat × List Nat) := do
  let c ← peekc v
  if c = 34 ∨ c = 123 then parse_string v
  else do
    let (run, v1) ← bufcspn astring_reject v
    if run.length = 0 then .error .emptyAstring else .ok (run, v1)

/-- `parse_atom` (parser.c lines 468-472). -/
def parse_atom (v : List Nat) : Except PErr (List Nat × List Nat) :=
  parse_cspn atom_specials v

/-- `parse_mailbox` (parser.c lines 1532-1549): astring with `INBOX`
case-normalisation. -/
def parse_mailbox (v : List Nat) : Except PErr (List Nat × List Nat) := do
  let (mb, v1) ← parse_astring v
  if mb.length = 5 ∧ mb.map toUpperByte = strBytes "INBOX" then .ok (strBytes "INBOX", v1)
  else .ok (mb, v1)

/-! ### Result values

Python dicts preserve insertion order and overwrite in place; they are
modelled as association lists with `dictSet`.  Python sets are modelled as
duplicate-free lists in insertion order via `setAdd`. -/

def dictSet {α β : Type} [BEq α] : List (α × β) → α → β → List (α × β)
  | [], k, val => [(k, val)]
  | (k0, v0) :: rest, k, val =>
    if k0 == k then (k0, val) :: rest else (k0, v0) :: dictSet rest k val

def dictGet {α β : Type} [BEq α] : List (α × β) → α → Option β
  | [], _ => none
  | (k0, v0) :: rest, k => if k0 == k then some v0 else dictGet rest k

def setAdd {α : Type} [BEq α] (l : List α) (x : α) : List α :=
  if l.contains x then l else l ++ [x]

abbrev Params := List (List Nat × List Nat)

/-- `Address` struct sequence (types.c). -/
structure Address where
  name : Option (List Nat)
  adl : Option (List Nat)
  mailbox : Option (List Nat)
  host : Option (List Nat)

/-- `Envelope` struct sequence (types.c).  The date field carries the raw
string accepted by the external RFC-5322 date parser (or `none`). -/
structure Envelope where
  date : Option (List Nat)
  subject : Option (List Nat)
  env_from : Option (List Address)
  sender : Option (List Address)
  reply_to : Option (List Address)
  env_to : Option (List Address)
  cc : Option (List Address)
  bcc : Option (List Address)
  in_reply_to : Option (List Nat)
  message_id : Option (List Nat)

/-- The value produced by `datetime.datetime.strptime` for INTERNALDATE,
represented opaquely by the raw accepted string. -/
inductive DateTimeVal where
  | strptime (raw : List Nat)

inductive SeqItem where
  | single (n : Nat)
  | range (a b : Nat)

inductive EsearchVal where
  | num (n : Nat)
  | seqset (l : List SeqItem)

/-- `Esearch` struct sequence (types.c). -/
structure Esearch where
  tag : Option (List Nat)
  uid : Bool
  returned : List (Token × EsearchVal)

/-- `body-fields` slots 2..6 common to the one-part body shapes. -/
structure BodyFields where
  params : Params
  id : Option (List Nat)
  description : Option (List Nat)
  encoding : List Nat
  size : Nat

inductive BodyExt where
  | list (l : List BodyExt)
  | num (n : Nat)
  | str (s : Option (List Nat))

/-- The optional extension tail shared by the one-part body shapes
(`md5, disposition, lang, location, extension`). -/
structure ExtTail1 where
  md5 : Option (List Nat)
  disposition : Option (List Nat × Params)
  lang : Option (List (List Nat))
  location : Option (List Nat)
  extension : List BodyExt

/-- The four BODYSTRUCTURE shapes (`TextBody`, `MessageBody`, `BasicBody`,
`MultipartBody` of types.c). -/
inductive Body where
  | text (subtype : List Nat) (flds : BodyFields) (lines : Nat) (tail : ExtTail1)
  | message (flds : BodyFields) (envelope : Envelope) (body : Body) (lines : Nat)
      (tail : ExtTail1)
  | basic (media_type : List Nat) (media_subtype : List Nat) (flds : BodyFields)
      (tail : ExtTail1)
  | multipart (subtype : List Nat) (parts : List Body) (params : Params)
      (disposition : Option (List Nat × Params)) (lang : Option (List (List Nat)))
      (location : Option (List Nat)) (extension : List BodyExt)

inductive FetchVal where
  | flags (s : List (List Nat))
  | body (b : Body)
  | envelope (e : Envelope)
  | date (d : DateTimeVal)
  | modseq (n : Nat)
  | nstr (s : Option (List Nat))
  | num (n : Nat)
  | sections (m : List (List Nat × (Option (List Nat) × Option Nat)))

/-- `Fetch` struct sequence (types.c). -/
structure Fetch where
  msg : Nat
  items : List (Token × FetchVal)

/-- `List` struct sequence (types.c). -/
structure MailboxList where
  attributes : List (List Nat)
  delimiter : Option Nat
  mailbox : List Nat

/-- `Status` struct sequence (types.c). -/
structure StatusData where
  mailbox : List Nat
  items : List (Token × Nat)

inductive RespCode where
  | token (t : Token)
  | atom (s : List Nat)

inductive RespCodeData where
  | num (n : Nat)
  | text (s : List Nat)

/-- `ResponseText` struct sequence (types.c). -/
structure ResponseText where
  text : Option (List Nat)
  code : Option RespCode
  code_data : Option RespCodeData

inductive UntaggedData where
  | rtext (rt : ResponseText)
  | caps (s : List (List Nat))
  | esearch (e : Esearch)
  | flagList (s : List (List Nat))
  | mblist (m : MailboxList)
  | searchSet (s : List Nat)
  | statusData (st : StatusData)
  | fetch (f : Fetch)
  | num (n : Nat)

/-- `ContinueReq`, `TaggedResponse` and `UntaggedResponse` (types.c). -/
inductive Resp where
  | continueReq (text : ResponseText)
  | tagged (tag : List Nat) (type : Token) (text : ResponseText)
  | untagged (type : Token) (data : UntaggedData)

/-! ### Leaf parsers -/

/-- The flag-reading loop of `parse_flag_list` (parser.c lines 1495-1520). -/
def flagListLoop (v : List Nat) (acc : List (List Nat)) :
    Nat → Except PErr (List (List Nat) × List Nat)
  | 0 => .error .fuelOut
  | fuel + 1 => do
    let c ← peekc v
    let (flag, v2) ←
      if c = 92 then do
        let (_, v1) ← getc v
        let (run, v2) ← bufcspn atom_specials v1
        if run.length = 0 then Except.error PErr.emptyAtom
        else Except.ok ((92 :: run : List Nat), v2)
      else parse_atom v
    let acc2 := setAdd acc flag
    let c2 ← peekc v2
    if c2 ≠ 32 then do
      let v3 ← expectc 41 v2
      .ok (acc2, v3)
    else do
      let (_, v3) ← getc v2
      flagListLoop v3 acc2 fuel

/-- `parse_flag_list` (parser.c lines 1481-1527). -/
def parse_flag_list (v : List Nat) : Except PErr (List (List Nat) × List Nat) := do
  let v1 ← expectc 40 v
  let c ← peekc v1
  if c = 41 then do
    let (_, v2) ← getc v1
    .ok ([], v2)
  else flagListLoop v1 [] (v1.length + 1)

/-- The flag-reading loop of `parse_mbx_list_flags` (parser.c lines 1615-1637):
every flag is `\` plus an atom. -/
def mbxFlagsLoop (v : List Nat) (acc : List (List Nat)) :
    Nat → Except PErr (List (List Nat) × List Nat)
  | 0 => .error .fuelOut
  | fuel + 1 => do
    let v1 ← expectc 92 v
    let (run, v2) ← bufcspn atom_specials v1
    if run.length = 0 then .error .emptyAtom
    else do
      let acc2 := setAdd acc (92 :: run)
      let c2 ← peekc v2
      if c2 ≠ 32 then do
        let v3 ← expectc 41 v2
        .ok (acc2, v3)
      else do
        let (_, v3) ← getc v2
        mbxFlagsLoop v3 acc2 fuel

/-- `parse_mbx_list_flags` (parser.c lines 1600-1644). -/
def parse_mbx_list_flags (v : List Nat) : Except PErr (List (List Nat) × List Nat) := do
  let v1 ← expectc 40 v
  let c ← peekc v1
  if c = 41 then do
    let (_, v2) ← getc v1
    .ok ([], v2)
  else mbxFlagsLoop v1 [] (v1.length + 1)

/-- `parse_mailbox_list` (parser.c lines 1554-1598). -/
def parse_mailbox_list (v : List Nat) : Except PErr (MailboxList × List Nat) := do
  let (flags, v1) ← parse_mbx_list_flags v
  let v2 ← expectc 32 v1
  let c ← peekc v2
  let (delimiter, v5) ←
    if c = 34 then do
      let (_, v3) ← getc v2
      let (d, v4) ← getc v3
      let v5 ← expects (strBytes "\x22 ") v4
      Except.ok ((some d : Option Nat), v5)
    else do
      let v3 ← expects (strBytes "NIL ") v2
      Except.ok ((none : Option Nat), v3)
  let (mailbox, v6) ← parse_mailbox v5
  .ok (⟨flags, delimiter, mailbox⟩, v6)

/-- `parse_address` (parser.c lines 387-435). -/
def parse_address (v : List Nat) : Except PErr (Address × List Nat) := do
  let v1 ← expectc 40 v
  let (name, v2) ← parse_nstring v1
  let v3 ← expectc 32 v2
  let (adl, v4) ← parse_nstring v3
  let v5 ← expectc 32 v4
  let (mailbox, v6) ← parse_nstring v5
  let v7 ← expectc 32 v6
  let (host, v8) ← parse_nstring v7
  let v9 ← expectc 41 v8
  .ok (⟨name, adl, mailbox, host⟩, v9)

/-- The address-reading loop of `parse_env_addrs` (parser.c lines 1309-1322). -/
def addrsLoop (v : List Nat) (acc : List Address) :
    Nat → Except PErr (List Address × List Nat)
  | 0 => .error .fuelOut
  | fuel + 1 => do
    let (a, v1) ← parse_address v
    let acc2 := acc ++ [a]
    let c ← peekc v1
    if c ≠ 40 then .ok (acc2, v1)
    else addrsLoop v1 acc2 fuel

/-- `parse_env_addrs` (parser.c lines 1294-1329). -/
def parse_env_addrs (v : List Nat) : Except PErr (Option (List Address) × List Nat) := do
  let c ← peekc v
  if c = 78 then do
    let v1 ← expects (strBytes "NIL") v
    .ok (none, v1)
  else do
    let v1 ← expectc 40 v
    let (l, v2) ← addrsLoop v1 [] (v1.length + 1)
    let v3 ← expectc 41 v2
    .ok (some l, v3)

/-- `parse_env_date` (parser.c lines 1335-1378).  Modelled from the spec: the
external collaborator `email.utils.parsedate_to_datetime` must accept typical
mail date strings and return absent on failure rather than raise (§6.4, §9);
the datetime is represented opaquely by the raw string handed to it. -/
def parse_env_date (v : List Nat) : Except PErr (Option (List Nat) × List Nat) :=
  parse_nstring_ascii v

/-- `parse_envelope` (parser.c lines 1194-1288). -/
def parse_envelope (v : List Nat) : Except PErr (Envelope × List Nat) := do
  let v1 ← expectc 40 v
  let (date, v2) ← parse_env_date v1
  let v3 ← expectc 32 v2
  let (subject, v4) ← parse_nstring v3
  let v5 ← expectc 32 v4
  let (env_from, v6) ← parse_env_addrs v5
  let v7 ← expectc 32 v6
  let (sender, v8) ← parse_env_addrs v7
  let v9 ← expectc 32 v8
  let (reply_to, v10) ← parse_env_addrs v9
  let v11 ← expectc 32 v10
  let (env_to, v12) ← parse_env_addrs v11
  let v13 ← expectc 32 v12
  let (cc, v14) ← parse_env_addrs v13
  let v15 ← expectc 32 v14
  let (bcc, v16) ← parse_env_addrs v15
  let v17 ← expectc 32 v16
  let (in_reply_to, v18) ← parse_nstring v17
  let v19 ← expectc 32 v18
  let (message_id, v20) ← parse_nstring v19
  let v21 ← expectc 41 v20
  .ok (⟨date, subject, env_from, sender, reply_to, env_to, cc, bcc, in_reply_to, message_id⟩, v21)

def isAlphaByte (b : Nat) : Bool := (65 ≤ b && b ≤ 90) || (97 ≤ b && b ≤ 122)

/-- Modelled from the spec: the format check done by the external collaborator
`datetime.datetime.strptime` with `"%d-%b-%Y %H:%M:%S %z"`; §4.3.7 calls it the
strict IMAP format `d-mmm-yyyy HH:MM:SS ±HHMM`.  Field ranges are not
modelled, only the shape (1-2 digit day, English month abbreviation, 4-digit
year, 2-digit clock fields, sign and 4-digit zone offset). -/
def imapDateFormatOk (s : List Nat) : Bool :=
  let months := [strBytes "JAN", strBytes "FEB", strBytes "MAR", strBytes "APR",
                 strBytes "MAY", strBytes "JUN", strBytes "JUL", strBytes "AUG",
                 strBytes "SEP", strBytes "OCT", strBytes "NOV", strBytes "DEC"]
  let day := s.takeWhile isDigitByte
  let rest := s.drop day.length
  (day.length = 1 || day.length = 2) &&
  match rest with
  | 45 :: m1 :: m2 :: m3 :: 45 :: y1 :: y2 :: y3 :: y4 :: 32 :: h1 :: h2 :: 58 ::
      mi1 :: mi2 :: 58 :: s1 :: s2 :: 32 :: sign :: z1 :: z2 :: z3 :: z4 :: [] =>
    months.contains ([m1, m2, m3].map toUpperByte) &&
    [y1, y2, y3, y4, h1, h2, mi1, mi2, s1, s2, z1, z2, z3, z4].all isDigitByte &&
    (sign == 43 || sign == 45)
  | _ => false

/-- `parse_date_time` (parser.c lines 1145-1189): quoted date-time text handed
to `strptime`; a `ValueError` becomes a `ParseError`. -/
def parse_date_time (v : List Nat) : Except PErr (DateTimeVal × List Nat) := do
  let v1 ← expectc 34 v
  let (s, v2) ← parse_cspn date_time_reject v1
  let v3 ← expectc 34 v2
  if imapDateFormatOk s then .ok (.strptime s, v3) else .error .invalidDate

/-- The range-reading loop of `parse_sequence_set` (parser.c lines 2238-2262). -/
def seqSetLoop (v : List Nat) (acc : List SeqItem) :
    Nat → Except PErr (List SeqItem × List Nat)
  | 0 => .error .fuelOut
  | fuel + 1 => do
    let (n1, v1) ← _parse_number v
    let c ← peekc v1
    let (item, v3) ←
      if c = 58 then do
        let (_, v2) ← getc v1
        let (n2, v3) ← _parse_number v2
        Except.ok (SeqItem.range n1 n2, v3)
      else Except.ok (SeqItem.single n1, v1)
    let acc2 := acc ++ [item]
    let c2 ← peekc v3
    if c2 ≠ 44 then .ok (acc2, v3)
    else do
      let (_, v4) ← getc v3
      seqSetLoop v4 acc2 fuel

/-- `parse_sequence_set` (parser.c lines 2230-2269). -/
def parse_sequence_set (v : List Nat) : Except PErr (List SeqItem × List Nat) :=
  seqSetLoop v [] (v.length + 1)

/-- The number-reading loop of `parse_search_att` (parser.c lines 2209-2221). -/
def searchAttLoop (v : List Nat) (acc : List Nat) :
    Nat → Except PErr (List Nat × List Nat)
  | 0 => .error .fuelOut
  | fuel + 1 => do
    let c ← peekc v
    if c ≠ 32 then .ok (acc, v)
    else do
      let (_, v1) ← getc v
      let (n, v2) ← parse_number v1
      searchAttLoop v2 (setAdd acc n) fuel

/-- `parse_search_att` (parser.c lines 2201-2228). -/
def parse_search_att (v : List Nat) : Except PErr (List Nat × List Nat) :=
  searchAttLoop v [] (v.length + 1)

/-- The item loop of `parse_status_att` (parser.c lines 2291-2321). -/
def statusAttLoop (v : List Nat) (acc : List (Token × Nat)) :
    Nat → Except PErr (List (Token × Nat) × List Nat)
  | 0 => .error .fuelOut
  | fuel + 1 => do
    let (t?, v1) ← parse_token v
    match t? with
    | some t =>
      match t with
      | .IMAP4_MESSAGES | .IMAP4_RECENT | .IMAP4_UIDNEXT | .IMAP4_UIDVALIDITY
      | .IMAP4_UNSEEN => do
        let v2 ← expectc 32 v1
        let (n, v3) ← parse_number v2
        let acc2 := dictSet acc t n
        let c ← peekc v3
        if c ≠ 32 then .ok (acc2, v3)
        else do
          let (_, v4) ← getc v3
          statusAttLoop v4 acc2 fuel
      | _ => .error .unknownStatusItem
    | none => .error .unknownStatusItem

/-- `parse_status_att` (parser.c lines 2274-2336). -/
def parse_status_att (v : List Nat) : Except PErr (StatusData × List Nat) := do
  let v1 ← expectc 32 v
  let (mailbox, v2) ← parse_mailbox v1
  let v3 ← expects (strBytes " (") v2
  let (items, v4) ← statusAttLoop v3 [] (v3.length + 1)
  let v5 ← expectc 41 v4
  .ok (⟨mailbox, items⟩, v5)

/-- The return-item loop of `parse_esearch_response` (parser.c lines
1420-1461). -/
def esearchLoop (v : List Nat) (tag : Option (List Nat)) (uid : Bool)
    (returned : List (Token × EsearchVal)) :
    Nat → Except PErr (Esearch × List Nat)
  | 0 => .error .fuelOut
  | fuel + 1 => do
    let c ← peekc v
    if c ≠ 32 then .ok (⟨tag, uid, returned⟩, v)
    else do
      let (_, v1) ← getc v
      let (t?, v2) ← parse_token v1
      match t? with
      | some t =>
        match t with
        | .IMAP4_UID => esearchLoop v2 tag true returned fuel
        | .IMAP4_COUNT | .IMAP4_MAX | .IMAP4_MIN => do
          let v3 ← expectc 32 v2
          let (n, v4) ← parse_number v3
          esearchLoop v4 tag uid (dictSet returned t (.num n)) fuel
        | .IMAP4_ALL => do
          let v3 ← expectc 32 v2
          let (l, v4) ← parse_sequence_set v3
          esearchLoop v4 tag uid (dictSet returned t (.seqset l)) fuel
        | _ => .error .unknownEsearchReturn
      | none => .error .unknownEsearchReturn

/-- `parse_esearch_response` (parser.c lines 1383-1476). -/
def parse_esearch_response (v : List Nat) : Except PErr (Esearch × List Nat) := do
  let c ← peekc v
  if c ≠ 32 then .ok (⟨none, false, []⟩, v)
  else do
    let (_, v1) ← getc v
    let c1 ← peekc v1
    let (tag, v4) ←
      if c1 = 40 then do
        let v2 ← expects (strBytes "(TAG ") v1
        let (t, v3) ← parse_string_ascii v2
        let v4 ← expectc 41 v3
        Except.ok ((some t : Option (List Nat)), v4)
      else Except.ok ((none : Option (List Nat)), v1)
    esearchLoop v4 tag false [] (v4.length + 1)

/-! ### BODYSTRUCTURE -/

/-- `parse_body_fld_param` (parser.c lines 880-925), parenthesised case loop
(lines 897-916). -/
def paramsLoop (v : List Nat) (acc : Params) :
    Nat → Except PErr (Params × List Nat)
  | 0 => .error .fuelOut
  | fuel + 1 => do
    let (key, v1) ← parse_string_ascii_lower v
    let v2 ← expectc 32 v1
    let (val, v3) ← parse_string_ascii v2
    let acc2 := dictSet acc key val
    let c ← peekc v3
    if c = 41 then do
      let (_, v4) ← getc v3
      .ok (acc2, v4)
    else do
      let v4 ← expectc 32 v3
      paramsLoop v4 acc2 fuel

/-- `parse_body_fld_param` (parser.c lines 880-925). -/
def parse_body_fld_param (v : List Nat) : Except PErr (Params × List Nat) := do
  let c ← peekc v
  if c ≠ 40 then do
    let v1 ← expects (strBytes "NIL") v
    .ok ([], v1)
  else do
    let (_, v1) ← getc v
    paramsLoop v1 [] (v1.length + 1)

/-- `parse_body_fld_dsp` (parser.c lines 786-819). -/
def parse_body_fld_dsp (v : List Nat) :
    Except PErr (Option (List Nat × Params) × List Nat) := do
  let c ← peekc v
  if c ≠ 40 then do
    let v1 ← expects (strBytes "NIL") v
    .ok (none, v1)
  else do
    let (_, v1) ← getc v
    let (type, v2) ← parse_string_ascii_lower v1
    let v3 ← expectc 32 v2
    let (params, v4) ← parse_body_fld_param v3
    let v5 ← expectc 41 v4
    .ok (some (type, params), v5)

/-- The parenthesised-list loop of `parse_body_fld_lang` (parser.c lines
852-868). -/
def langLoop (v : List Nat) (acc : List (List Nat)) :
    Nat → Except PErr (Option (List (List Nat)) × List Nat)
  | 0 => .error .fuelOut
  | fuel + 1 => do
    let (lang, v1) ← parse_string_ascii v
    let acc2 := acc ++ [lang]
    let c ← peekc v1
    if c = 41 then do
      let (_, v2) ← getc v1
      .ok (some acc2, v2)
    else do
      let v2 ← expectc 32 v1
      langLoop v2 acc2 fuel

/-- `parse_body_fld_lang` (parser.c lines 824-875). -/
def parse_body_fld_lang (v : List Nat) :
    Except PErr (Option (List (List Nat)) × List Nat) := do
  let c ← peekc v
  if c ≠ 40 then do
    let (l?, v1) ← parse_nstring_ascii v
    match l? with
    | none => .ok (none, v1)
    | some l => .ok (some [l], v1)
  else do
    let (_, v1) ← getc v
    langLoop v1 [] (v1.length + 1)

/-- `parse_body_fields` (parser.c lines 739-781). -/
def parse_body_fields (v : List Nat) : Except PErr (BodyFields × List Nat) := do
  let (params, v1) ← parse_body_fld_param v
  let v2 ← expectc 32 v1
  let (id, v3) ← parse_nstring_ascii v2
  let v4 ← expectc 32 v3
  let (description, v5) ← parse_nstring_ascii v4
  let v6 ← expectc 32 v5
  let (encoding, v7) ← parse_string_ascii_lower v6
  let v8 ← expectc 32 v7
  let (size, v9) ← parse_number v8
  .ok (⟨params, id, description, encoding, size⟩, v9)

/-! The mutually recursive body grammar (parser.c lines 477-496, 563-602,
607-734, 930-1113).  All members take explicit fuel, decremented at every
entry; callers outside the block pass `8 * (length + 1)` which exceeds the
possible recursion depth (every cycle through `parse_body` or
`parse_body_extension` consumes at least one input byte, and at most a
handful of block-internal hops happen per byte), so the fuel-0 branch is
unreachable. -/

mutual

/-- `parse_body` (parser.c lines 477-496). -/
def parse_body (v : List Nat) : Nat → Except PErr (Body × List Nat)
  | 0 => .error .fuelOut
  | fuel + 1 => do
    let v1 ← expectc 40 v
    let c ← peekc v1
    let (body, v2) ←
      if c = 40 then parse_body_type_mpart v1 fuel else parse_body_type_1part v1 fuel
    let v3 ← expectc 41 v2
    .ok (body, v3)

/-- The nested-part loop of `parse_body_type_mpart` (parser.c lines
1053-1064). -/
def mpartPartsLoop (v : List Nat) (acc : List Body) :
    Nat → Except PErr (List Body × List Nat)
  | 0 => .error .fuelOut
  | fuel + 1 => do
    let c ← peekc v
    if c = 40 then do
      let (b, v1) ← parse_body v fuel
      mpartPartsLoop v1 (acc ++ [b]) fuel
    else .ok (acc, v)

/-- `parse_body_type_mpart` (parser.c lines 1039-1113), with the
`num_ext < 5` defaulting of the extension fields folded into the result. -/
def parse_body_type_mpart (v : List Nat) : Nat → Except PErr (Body × List Nat)
  | 0 => .error .fuelOut
  | fuel + 1 => do
    let (parts, v1) ← mpartPartsLoop v [] fuel
    let v2 ← expectc 32 v1
    let (subtype, v3) ← parse_string_ascii_lower v2
    let c ← peekc v3
    if c = 32 then do
      let (_, v4) ← getc v3
      let ((params, dsp, lang, loc, ext), v5) ← parse_body_ext_mpart v4 fuel
      .ok (.multipart subtype parts params dsp lang loc ext, v5)
    else .ok (.multipart subtype parts [] none none none [], v3)

/-- The trailing `(SP body-extension)*` loop shared by `parse_body_ext_1part`
and `parse_body_ext_mpart` (parser.c lines 654-664 and 717-727). -/
def extListLoop (v : List Nat) (acc : List BodyExt) :
    Nat → Except PErr (List BodyExt × List Nat)
  | 0 => .error .fuelOut
  | fuel + 1 => do
    let c ← peekc v
    if c ≠ 32 then .ok (acc, v)
    else do
      let (_, v1) ← getc v
      let (e, v2) ← parse_body_extension v1 fuel
      extListLoop v2 (acc ++ [e]) fuel

/-- `parse_body_ext_mpart` (parser.c lines 676-734), with the missing fields
defaulted as by the caller loop (lines 1084-1100). -/
def parse_body_ext_mpart (v : List Nat) :
    Nat → Except PErr ((Params × Option (List Nat × Params) × Option (List (List Nat)) ×
      Option (List Nat) × List BodyExt) × List Nat)
  | 0 => .error .fuelOut
  | fuel + 1 => do
    let (params, v1) ← parse_body_fld_param v
    let c1 ← peekc v1
    if c1 ≠ 32 then .ok ((params, none, none, none, []), v1)
    else do
      let (_, v2) ← getc v1
      let (dsp, v3) ← parse_body_fld_dsp v2
      let c2 ← peekc v3
      if c2 ≠ 32 then .ok ((params, dsp, none, none, []), v3)
      else do
        let (_, v4) ← getc v3
        let (lang, v5) ← parse_body_fld_lang v4
        let c3 ← peekc v5
        if c3 ≠ 32 then .ok ((params, dsp, lang, none, []), v5)
        else do
          let (_, v6) ← getc v5
          let (loc, v7) ← parse_nstring_ascii v6
          let (ext, v8) ← extListLoop v7 [] fuel
          .ok ((params, dsp, lang, loc, ext), v8)

/-- `parse_body_ext_1part` (parser.c lines 607-671), with the missing fields
defaulted as by the caller loop (lines 1011-1023). -/
def parse_body_ext_1part (v : List Nat) : Nat → Except PErr (ExtTail1 × List Nat)
  | 0 => .error .fuelOut
  | fuel + 1 => do
    let (md5, v1) ← parse_nstring_ascii v
    let c1 ← peekc v1
    if c1 ≠ 32 then .ok (⟨md5, none, none, none, []⟩, v1)
    else do
      let (_, v2) ← getc v1
      let (dsp, v3) ← parse_body_fld_dsp v2
      let c2 ← peekc v3
      if c2 ≠ 32 then .ok (⟨md5, dsp, none, none, []⟩, v3)
      else do
        let (_, v4) ← getc v3
        let (lang, v5) ← parse_body_fld_lang v4
        let c3 ← peekc v5
        if c3 ≠ 32 then .ok (⟨md5, dsp, lang, none, []⟩, v5)
        else do
          let (_, v6) ← getc v5
          let (loc, v7) ← parse_nstring_ascii v6
          let (ext, v8) ← extListLoop v7 [] fuel
          .ok (⟨md5, dsp, lang, loc, ext⟩, v8)

/-- The optional `SP body-ext-1part` tail of `parse_body_type_1part`
(parser.c lines 1004-1023). -/
def parse1partTail (v : List Nat) : Nat → Except PErr (ExtTail1 × List Nat)
  | 0 => .error .fuelOut
  | fuel + 1 => do
    let c ← peekc v
    if c = 32 then do
      let (_, v1) ← getc v
      parse_body_ext_1part v1 fuel
    else .ok (⟨none, none, none, none, []⟩, v)

/-- `parse_body_type_1part` (parser.c lines 930-1034). -/
def parse_body_type_1part (v : List Nat) : Nat → Except PErr (Body × List Nat)
  | 0 => .error .fuelOut
  | fuel + 1 => do
    let (media_type, v1) ← parse_string_ascii_lower v
    let v2 ← expectc 32 v1
    let (media_subtype, v3) ← parse_string_ascii_lower v2
    let v4 ← expectc 32 v3
    if media_type = strBytes "text" then do
      let (flds, v5) ← parse_body_fields v4
      let v6 ← expectc 32 v5
      let (lines, v7) ← parse_number v6
      let (tail, v8) ← parse1partTail v7 fuel
      .ok (.text media_subtype flds lines tail, v8)
    else if media_type = strBytes "message" ∧ media_subtype = strBytes "rfc822" then do
      let (flds, v5) ← parse_body_fields v4
      let v6 ← expectc 32 v5
      let (envelope, v7) ← parse_envelope v6
      let v8 ← expectc 32 v7
      let (body, v9) ← parse_body v8 fuel
      let v10 ← expectc 32 v9
      let (lines, v11) ← parse_number v10
      let (tail, v12) ← parse1partTail v11 fuel
      .ok (.message flds envelope body lines tail, v12)
    else do
      let (flds, v5) ← parse_body_fields v4
      let (tail, v6) ← parse1partTail v5 fuel
      .ok (.basic media_type media_subtype flds tail, v6)

/-- The parenthesised-list loop of `parse_body_extension` (parser.c lines
575-591). -/
def bodyExtListLoop (v : List Nat) (acc : List BodyExt) :
    Nat → Except PErr (BodyExt × List Nat)
  | 0 => .error .fuelOut
  | fuel + 1 => do
    let (e, v1) ← parse_body_extension v fuel
    let acc2 := acc ++ [e]
    let c ← peekc v1
    if c = 41 then do
      let (_, v2) ← getc v1
      .ok (.list acc2, v2)
    else do
      let v2 ← expectc 32 v1
      bodyExtListLoop v2 acc2 fuel

/-- `parse_body_extension` (parser.c lines 563-602). -/
def parse_body_extension (v : List Nat) : Nat → Except PErr (BodyExt × List Nat)
  | 0 => .error .fuelOut
  | fuel + 1 => do
    let c ← peekc v
    if c = 40 then do
      let (_, v1) ← getc v
      bodyExtListLoop v1 [] fuel
    else if isDigitByte c then do
      let (n, v1) ← parse_number v
      .ok (.num n, v1)
    else do
      let (s, v1) ← parse_nstring_ascii v
      .ok (.str s, v1)

end

/-- Fuel passed into the body grammar from outside the mutual block. -/
def bodyFuel (v : List Nat) : Nat := 8 * (v.length + 1)

/-! ### FETCH, resp-text and response dispatch -/

/-- `parse_bodysection` (parser.c lines 501-558): returns the section text,
the `(content, origin)` pair recorded for it, and the remainder. -/
def parse_bodysection (v : List Nat) :
    Except PErr ((List Nat × (Option (List Nat) × Option Nat)) × List Nat) := do
  let v1 ← expectc 91 v
  let (sect, v2) ← bufcspn section_spec_reject v1
  let v3 ← expectc 93 v2
  let c ← peekc v3
  let (origin, v6) ←
    if c = 60 then do
      let (_, v4) ← getc v3
      let (n, v5) ← parse_number v4
      let v6 ← expectc 62 v5
      Except.ok ((some n : Option Nat), v6)
    else Except.ok ((none : Option Nat), v3)
  let v7 ← expectc 32 v6
  let (content, v8) ← parse_nstring v7
  .ok ((sect, (content, origin)), v8)

/-- The item loop of `parse_msg_att` (parser.c lines 1733-1809). -/
def msgAttLoop (v : List Nat) (items : List (Token × FetchVal)) :
    Nat → Except PErr (List (Token × FetchVal) × List Nat)
  | 0 => .error .fuelOut
  | fuel + 1 => do
    let (t?, v1) ← parse_token v
    let (items2, v2) ←
      match t? with
      | some t =>
        match t with
        | .IMAP4_FLAGS => do
          let v2 ← expectc 32 v1
          let (f, v3) ← parse_flag_list v2
          Except.ok (dictSet items t (.flags f), v3)
        | .IMAP4_BODY => do
          let c ← peekc v1
          if c = 91 then do
            let ((sect, pair), v2) ← parse_bodysection v1
            let cur :=
              match dictGet items Token.IMAP4_BODYSECTIONS with
              | some (FetchVal.sections m) => m
              | _ => []
            Except.ok (dictSet items Token.IMAP4_BODYSECTIONS
              (.sections (dictSet cur sect pair)), v2)
          else do
            let v2 ← expectc 32 v1
            let (b, v3) ← parse_body v2 (bodyFuel v2)
            Except.ok (dictSet items t (.body b), v3)
        | .IMAP4_BODYSTRUCTURE => do
          let v2 ← expectc 32 v1
          let (b, v3) ← parse_body v2 (bodyFuel v2)
          Except.ok (dictSet items t (.body b), v3)
        | .IMAP4_ENVELOPE => do
          let v2 ← expectc 32 v1
          let (e, v3) ← parse_envelope v2
          Except.ok (dictSet items t (.envelope e), v3)
        | .IMAP4_INTERNALDATE => do
          let v2 ← expectc 32 v1
          let (d, v3) ← parse_date_time v2
          Except.ok (dictSet items t (.date d), v3)
        | .IMAP4_MODSEQ => do
          let v2 ← expects (strBytes " (") v1
          let (n, v3) ← _parse_number v2
          let v4 ← expectc 41 v3
          Except.ok (dictSet items t (.modseq n), v4)
        | .IMAP4_RFC822 | .IMAP4_RFC822_HEADER | .IMAP4_RFC822_TEXT => do
          let v2 ← expectc 32 v1
          let (s, v3) ← parse_nstring v2
          Except.ok (dictSet items t (.nstr s), v3)
        | .IMAP4_RFC822_SIZE | .IMAP4_UID | .IMAP4_X_GM_MSGID => do
          let v2 ← expectc 32 v1
          let (n, v3) ← parse_number v2
          Except.ok (dictSet items t (.num n), v3)
        | _ => .error .unknownFetchItem
      | none => .error .unknownFetchItem
    let c2 ← peekc v2
    if c2 ≠ 32 then do
      let v3 ← expectc 41 v2
      .ok (items2, v3)
    else do
      let (_, v3) ← getc v2
      msgAttLoop v3 items2 fuel

/-- `parse_msg_att` (parser.c lines 1722-1819). -/
def parse_msg_att (v : List Nat) : Except PErr (List (Token × FetchVal) × List Nat) := do
  let v1 ← expectc 40 v
  msgAttLoop v1 [] (v1.length + 1)

/-- `parse_message_data` (parser.c lines 1653-1717). -/
def parse_message_data (v : List Nat) :
    Except PErr ((Token × UntaggedData) × List Nat) := do
  let (number, v1) ← _parse_number v
  let v2 ← expectc 32 v1
  let (t?, v3) ← parse_token v2
  match t? with
  | some t =>
    match t with
    | .IMAP4_FETCH => do
      let v4 ← expectc 32 v3
      let (items, v5) ← parse_msg_att v4
      .ok ((t, .fetch ⟨number, items⟩), v5)
    | .IMAP4_EXISTS | .IMAP4_EXPUNGE | .IMAP4_RECENT =>
      .ok ((t, .num number), v3)
    | _ => .error .unknownMessageData
  | none => .error .unknownMessageData

/-- The default arm of the `resp-text-code` switch (parser.c lines 2142-2155):
an unrecognised code atom is kept as raw text, with optional raw-text
arguments. -/
def respTextRawCode (run : List Nat) (v2 : List Nat) :
    Except PErr ((Option RespCode × Option RespCodeData) × List Nat) := do
  let c2 ← peekc v2
  if c2 = 32 then do
    let (_, v3) ← getc v2
    let (txt, v4) ← parse_cspn resp_text_code_reject v3
    .ok (((some (.atom run), some (.text txt))), v4)
  else .ok (((some (.atom run), none)), v2)

/-- `parse_resp_text` (parser.c lines 2097-2196). -/
def parse_resp_text (v : List Nat) : Except PErr (ResponseText × List Nat) := do
  let c ← peekc v
  if c = 91 then do
    let (_, v1) ← getc v
    let (run, v2) ← bufcspn atom_specials v1
    if run = [] then .error .emptyAtom
    else do
      let ((code, code_data), v5) ←
        match imap4_token run with
        | some t =>
          match t with
          | Token.IMAP4_ALERT | Token.IMAP4_PARSE | Token.IMAP4_READ_ONLY
          | Token.IMAP4_READ_WRITE | Token.IMAP4_TRYCREATE =>
            Except.ok (((some (RespCode.token t) : Option RespCode),
              (none : Option RespCodeData)), v2)
          | Token.IMAP4_HIGHESTMODSEQ | Token.IMAP4_UIDNEXT
          | Token.IMAP4_UIDVALIDITY | Token.IMAP4_UNSEEN => do
            let v3 ← expectc 32 v2
            let (n, v4) ← parse_number v3
            Except.ok (((some (RespCode.token t) : Option RespCode),
              (some (RespCodeData.num n) : Option RespCodeData)), v4)
          | _ => respTextRawCode run v2
        | none => respTextRawCode run v2
      let v6 ← expectc 93 v5
      let c3 ← peekc v6
      if c3 = 32 then do
        let (_, v7) ← getc v6
        let (txt, v8) ← parse_cspn text_reject v7
        .ok (⟨some txt, code, code_data⟩, v8)
      else .ok (⟨none, code, code_data⟩, v6)
  else do
    let (txt, v1) ← parse_cspn text_reject v
    .ok (⟨some txt, none, none⟩, v1)

/-- `parse_continue_req` (parser.c lines 1118-1140). -/
def parse_continue_req (v : List Nat) : Except PErr (Resp × List Nat) := do
  let v1 ← expects (strBytes "+ ") v
  let (rt, v2) ← parse_resp_text v1
  let v3 ← expects [13, 10] v2
  .ok (.continueReq rt, v3)

/-- `parse_response_tagged` (parser.c lines 2042-2093). -/
def parse_response_tagged (v : List Nat) : Except PErr (Resp × List Nat) := do
  let (tag, v1) ← parse_cspn tag_reject v
  let v2 ← expectc 32 v1
  let (t?, v3) ← parse_token v2
  match t? with
  | some t =>
    match t with
    | .IMAP4_OK | .IMAP4_NO | .IMAP4_BAD => do
      let v4 ← expectc 32 v3
      let (rt, v5) ← parse_resp_text v4
      let v6 ← expects [13, 10] v5
      .ok (.tagged tag t rt, v6)
    | _ => .error .unknownTagged
  | none => .error .unknownTagged

/-- The capability-reading loop of `parse_response_data` (parser.c lines
1976-1987). -/
def capsLoop (v : List Nat) (acc : List (List Nat)) :
    Nat → Except PErr (List (List Nat) × List Nat)
  | 0 => .error .fuelOut
  | fuel + 1 => do
    let c ← peekc v
    if c ≠ 32 then .ok (acc, v)
    else do
      let (_, v1) ← getc v
      let (cap, v2) ← parse_atom v1
      capsLoop v2 (setAdd acc cap) fuel

/-- `parse_response_data` (parser.c lines 1936-2037). -/
def parse_response_data (v : List Nat) : Except PErr (Resp × List Nat) := do
  let v1 ← expects (strBytes "* ") v
  let c ← peekc v1
  let ((type, data), v2) ←
    if isDigitByte c then parse_message_data v1
    else do
      let (t?, v2) ← parse_token v1
      match t? with
      | some t =>
        match t with
        | .IMAP4_OK | .IMAP4_NO | .IMAP4_BAD | .IMAP4_PREAUTH | .IMAP4_BYE => do
          let v3 ← expectc 32 v2
          let (rt, v4) ← parse_resp_text v3
          Except.ok ((t, UntaggedData.rtext rt), v4)
        | .IMAP4_CAPABILITY | .IMAP4_ENABLED => do
          let (caps, v3) ← capsLoop v2 [] (v2.length + 1)
          Except.ok ((t, UntaggedData.caps caps), v3)
        | .IMAP4_ESEARCH => do
          let (e, v3) ← parse_esearch_response v2
          Except.ok ((t, UntaggedData.esearch e), v3)
        | .IMAP4_FLAGS => do
          let v3 ← expectc 32 v2
          let (f, v4) ← parse_flag_list v3
          Except.ok ((t, UntaggedData.flagList f), v4)
        | .IMAP4_LIST | .IMAP4_LSUB => do
          let v3 ← expectc 32 v2
          let (m, v4) ← parse_mailbox_list v3
          Except.ok ((t, UntaggedData.mblist m), v4)
        | .IMAP4_SEARCH => do
          let (s, v3) ← parse_search_att v2
          Except.ok ((t, UntaggedData.searchSet s), v3)
        | .IMAP4_STATUS => do
          let (st, v3) ← parse_status_att v2
          Except.ok ((t, UntaggedData.statusData st), v3)
        | _ => .error .unknownUntagged
      | none => .error .unknownUntagged
  let v3 ← expects [13, 10] v2
  .ok (.untagged type data, v3)

/-- `parse_response` (parser.c lines 1910-1931). -/
def parse_response (v : List Nat) : Except PErr (Resp × List Nat) := do
  let c ← peekc v
  if c = 42 then parse_response_data v
  else if c = 43 then parse_continue_req v
  else parse_response_tagged v

/-! ### Entry points (parser.c lines 133-218) -/

/-- `parse_response_line` (parser.c lines 133-160). -/
def parse_response_line (input : List Nat) : Except PErr Resp :=
  if input.length = 0 then .error .nothingToParse
  else
    match parse_response input with
    | .error e => .error e
    | .ok (res, rest) => if rest ≠ [] then .error .trailing else .ok res

/-- `parse_imap_string` (parser.c lines 162-189). -/
def parse_imap_string (input : List Nat) : Except PErr (List Nat) :=
  if input.length = 0 then .error .nothingToParse
  else
    match parse_string input with
    | .error e => .error e
    | .ok (res, rest) => if rest ≠ [] then .error .trailing else .ok res

/-- `parse_imap_astring` (parser.c lines 191-218). -/
def parse_imap_astring (input : List Nat) : Except PErr (List Nat) :=
  if input.length = 0 then .error .nothingToParse
  else
    match parse_astring input with
    | .error e => .error e
    | .ok (res, rest) => if rest ≠ [] then .error .trailing else .ok res

/-! ## Claim C1: scanner framing round trip

The driver below follows the claim's protocol: feed the server output one
byte at a time; after each feed call `get` (calling it again before more data
arrives returns the identical failure, so a single call realises "until it
succeeds"), and when `get` succeeds, `consume` exactly the length of the
returned view, collecting the view. -/

def driveStep (acc : List (List Nat) × Scanner) (b : Nat) : List (List Nat) × Scanner :=
  let s := Scanner_feed acc.2 [b]
  match Scanner_get s with
  | (s1, .ok v) =>
    match Scanner_consume s1 v.length with
    | (s2, .ok _) => (acc.1 ++ [v], s2)
    | (s2, .error _) => (acc.1, s2)
  | (s1, .error _) => (acc.1, s1)

def drive (S : List Nat) : List (List Nat) × Scanner :=
  S.foldl driveStep ([], ⟨[], 0, 0⟩)

/-- One `{DIGITS}CRLF` literal splice inside a response line: the visible
text before the `{`, the digit span, and the opaque payload bytes. -/
structure Splice where
  hd : List Nat
  digs : List Nat
  payload : List Nat
deriving DecidableEq

def spliceBytes (sp : Splice) : List Nat :=
  sp.hd ++ 123 :: sp.digs ++ 125 :: 13 :: 10 :: sp.payload

/-- A complete response line: any number of literal splices followed by the
final visible text and the terminating CRLF. -/
structure RLine where
  splices : List Splice
  lastHd : List Nat
deriving DecidableEq

def lineBytes (L : RLine) : List Nat :=
  (L.splices.map spliceBytes).flatten ++ L.lastHd ++ [13, 10]

/-- The claim's notion of a legal complete response line, following the
claim's words: visible text segments contain no CRLF, each splice carries one
or more digits whose value (within `strtoul` range) counts exactly the opaque
payload bytes, and the line's own final text does not end in a `{DIGITS+}`
splice pattern (a line whose visible text ends that way is by the framing
rules a splice, not a line end). -/
def spliceOkB (sp : Splice) : Bool :=
  (findCRLF sp.hd).isNone && !sp.digs.isEmpty && sp.digs.all isDigitByte &&
  decide (digitsVal sp.digs ≤ U64MAX) && sp.payload.length == digitsVal sp.digs

def claimLegalLine (L : RLine) : Bool :=
  L.splices.all spliceOkB && (findCRLF L.lastHd).isNone &&
  (spliceLen (L.lastHd ++ [13, 10]) L.lastHd.length).isNone

/-- The first byte the scanner meets after a splice's payload: the next
segment's visible text, or its `{` when that text is empty, or the final
CRLF's CR when the payload ends the line's visible part. -/
def nextFirstByte (rest : List Splice) (lastHd : List Nat) : Nat :=
  match rest with
  | sp :: _ => match sp.hd with | b :: _ => b | [] => 123
  | [] => match lastHd with | b :: _ => b | [] => 13

/-- No payload may end in CR when the byte after it is LF: the cursor rewind
performed by a failing CRLF search at the exact payload boundary re-exposes
the payload's last byte to the next search. -/
def boundaryOk : List Splice → List Nat → Bool
  | [], _ => true
  | sp :: rest, lastHd =>
    !(sp.payload.getLast? == some 13 && nextFirstByte rest lastHd == 10) &&
      boundaryOk rest lastHd

/-- The amended legality: the claim's grammar plus the two conditions the
counterexamples force — no spurious `{DIGITS+}` match in the whole-line
context at the final CRLF (the back-scan does not respect the payload
boundary), and no payload/LF seam (`boundaryOk`). -/
def legalLine (L : RLine) : Bool :=
  claimLegalLine L && boundaryOk L.splices L.lastHd &&
  (spliceLen (lineBytes L) ((lineBytes L).length - 2)).isNone

/-- A line that is legal by the claim's grammar but misframed by the scanner:
one splice of three opaque payload bytes `{1}` followed directly by the
terminating CRLF; the back-scan at that CRLF reads the payload bytes as a
fresh splice. -/
def lineCounterexample : RLine := ⟨[⟨[], [51], [123, 49, 125]⟩], []⟩

/-! ## Supporting lemmas -/

@[simp] lemma ebind_ok {ε α β : Type} (a : α) (f : α → Except ε β) :
    (Except.ok a : Except ε α) >>= f = f a := rfl

@[simp] lemma ebind_error {ε α β : Type} (e : ε) (f : α → Except ε β) :
    (Except.error e : Except ε α) >>= f = .error e := rfl

/-! ## Supporting lemmas: CRLF search -/

lemma getD_drop (l : List Nat) (i j : Nat) : (l.drop i).getD j 0 = l.getD (i + j) 0 := by
  simp [List.getD_eq_getElem?_getD, List.getElem?_drop]

lemma findCRLF_some_spec :
    ∀ (l : List Nat) (i : Nat), findCRLF l = some i →
      i + 2 ≤ l.length ∧ l.getD i 0 = 13 ∧ l.getD (i + 1) 0 = 10 := by
  intro l
  induction l with
  | nil => intro i h; simp [findCRLF] at h
  | cons b1 rest ih =>
    intro i h
    cases rest with
    | nil => simp [findCRLF] at h
    | cons b2 rest2 =>
      rw [findCRLF] at h
      by_cases hp : b1 = 13 ∧ b2 = 10
      · rw [if_pos hp] at h
        cases h
        refine ⟨by simp, by simp [hp.1], by simp [hp.2]⟩
      · rw [if_neg hp] at h
        rcases Option.map_eq_some'.mp h with ⟨j, hj, rfl⟩
        obtain ⟨h1, h2, h3⟩ := ih j hj
        exact ⟨by simp at h1 ⊢; omega, by simpa using h2, by simpa using h3⟩

lemma findCRLF_drop_none :
    ∀ (l : List Nat), findCRLF l = none → ∀ k, findCRLF (l.drop k) = none := by
  intro l
  induction l with
  | nil => intro _ k; simp [findCRLF]
  | cons b1 rest ih =>
    intro h k
    cases k with
    | zero => simpa using h
    | succ k2 =>
      cases rest with
      | nil => cases k2 <;> simp [findCRLF]
      | cons b2 rest2 =>
        rw [findCRLF] at h
        by_cases hp : b1 = 13 ∧ b2 = 10
        · rw [if_pos hp] at h; cases h
        · rw [if_neg hp] at h
          simp only [Option.map_eq_none'] at h
          simpa using ih h k2

lemma findCRLFFrom_some_spec (buf : List Nat) (s c : Nat)
    (h : findCRLFFrom buf s = some c) :
    s ≤ c ∧ c + 2 ≤ buf.length ∧ buf.getD c 0 = 13 ∧ buf.getD (c + 1) 0 = 10 := by
  rcases Option.map_eq_some'.mp h with ⟨i, hi, hc⟩
  obtain ⟨h1, h2, h3⟩ := findCRLF_some_spec _ i hi
  subst hc
  have hlen : (buf.drop s).length = buf.length - s := by simp
  rw [hlen] at h1
  rw [getD_drop] at h2 h3
  constructor
  · omega
  constructor
  · omega
  constructor
  · simpa [Nat.add_comm] using h2
  · have : s + (i + 1) = i + s + 1 := by omega
    rw [this] at h3
    exact h3

lemma findCRLFFrom_none_mono (buf : List Nat) (s s2 : Nat)
    (h : findCRLFFrom buf s = none) (hle : s ≤ s2) : findCRLFFrom buf s2 = none := by
  unfold findCRLFFrom at h ⊢
  simp only [Option.map_eq_none'] at h ⊢
  have : buf.drop s2 = (buf.drop s).drop (s2 - s) := by
    rw [List.drop_drop]
    congr 1
    omega
  rw [this]
  exact findCRLF_drop_none _ h _

lemma findCRLFFrom_oob (buf : List Nat) (s : Nat) (h : buf.length ≤ s + 1) :
    findCRLFFrom buf s = none := by
  cases hf : findCRLFFrom buf s with
  | none => rfl
  | some c =>
    obtain ⟨h1, h2, _⟩ := findCRLFFrom_some_spec _ _ _ hf
    omega

/-! ## Supporting lemmas: the `Scanner_get` loop -/

/-- Every failing run of the loop leaves the state in one of three shapes:
an `incompleteLiteral` stop at the end of the buffer with literal bytes still
owed, an `incompleteLine` stop at `buflen - 1` (or at 0 on an empty buffer)
with no literal active, or a `badLiteralLength` stop at the cursor of the
failing iteration, whose CRLF search and splice test will fire identically on
the next call. -/
lemma scanGetLoop_err_spec (buf : List Nat) :
    ∀ (fuel start lit st lt : Nat) (e : ScanErr),
      start ≤ buf.length → buf.length - start + 2 ≤ 2 * fuel →
      scanGetLoop buf fuel start lit = ((st, lt), .error e) →
      (e = .incompleteLiteral ∧ st = buf.length ∧ 0 < lt ∧ start ≤ st) ∨
      (e = .incompleteLine ∧ lt = 0 ∧
        ((0 < buf.length ∧ st = buf.length - 1) ∨ (buf.length = 0 ∧ st = 0))) ∨
      (e = .badLiteralLength ∧ lt = 0 ∧ st ≤ buf.length ∧ start ≤ st ∧
        ∃ c L, findCRLFFrom buf st = some c ∧ spliceLen buf c = some L ∧ U64MAX < L) := by
  intro fuel
  induction fuel with
  | zero => intro start lit st lt e h1 h2 h3; omega
  | succ fuel ih =>
    intro start lit st lt e h1 h2 h3
    rw [scanGetLoop] at h3
    by_cases hskip : 0 < lit ∧ buf.length - start < lit
    · rw [if_pos hskip] at h3
      simp only [Prod.mk.injEq, Except.error.injEq] at h3
      obtain ⟨⟨hst, hlt⟩, he⟩ := h3
      left
      refine ⟨he.symm, by omega, by omega, by omega⟩
    · rw [if_neg hskip] at h3
      split at h3
      · next hf =>
        simp only [Prod.mk.injEq, Except.error.injEq] at h3
        obtain ⟨⟨hst, hlt⟩, he⟩ := h3
        right; left
        refine ⟨he.symm, hlt.symm, ?_⟩
        by_cases hb : 0 < buf.length
        · left; exact ⟨hb, by rw [← hst, if_pos hb]⟩
        · right; exact ⟨by omega, by rw [← hst, if_neg hb]; omega⟩
      · next c hf =>
        obtain ⟨hc1, hc2, -, -⟩ := findCRLFFrom_some_spec _ _ _ hf
        split at h3
        · simp at h3
        · next L hsp =>
          split at h3
          · next hL =>
            simp only [Prod.mk.injEq, Except.error.injEq] at h3
            obtain ⟨⟨hst, hlt⟩, he⟩ := h3
            right; right
            refine ⟨he.symm, hlt.symm, by omega, by omega, c, L, by rw [← hst]; exact hf,
              hsp, hL⟩
          · next hL =>
            have := ih (c + 2) L st lt e (by omega) (by omega) h3
            rcases this with ⟨ha, hb, hc, hd⟩ | h | ⟨ha, hb, hc, hd, he⟩
            · left; exact ⟨ha, hb, hc, by omega⟩
            · right; left; exact h
            · right; right; exact ⟨ha, hb, hc, by omega, he⟩

/-- Every successful run of the loop stops at a CRLF that lies past the whole
active literal and fails the splice test; the cursor is left at the CR and the
literal counter at zero. -/
lemma scanGetLoop_ok_spec (buf : List Nat) :
    ∀ (fuel start lit st lt e : Nat),
      scanGetLoop buf fuel start lit = ((st, lt), .ok e) →
      st = e ∧ lt = 0 ∧ start + lit ≤ e ∧ e + 2 ≤ buf.length ∧
      buf.getD e 0 = 13 ∧ buf.getD (e + 1) 0 = 10 ∧ spliceLen buf e = none := by
  intro fuel
  induction fuel with
  | zero => intro start lit st lt e h; simp [scanGetLoop] at h
  | succ fuel ih =>
    intro start lit st lt e h
    rw [scanGetLoop] at h
    by_cases hskip : 0 < lit ∧ buf.length - start < lit
    · rw [if_pos hskip] at h; simp at h
    · rw [if_neg hskip] at h
      split at h
      · simp at h
      · next c hf =>
        obtain ⟨hc1, hc2, hc3, hc4⟩ := findCRLFFrom_some_spec _ _ _ hf
        split at h
        · next hsp =>
          simp only [Prod.mk.injEq, Except.ok.injEq] at h
          obtain ⟨⟨hst, hlt⟩, he⟩ := h
          subst he
          exact ⟨hst.symm, hlt.symm, by omega, hc2, hc3, hc4, hsp⟩
        · next L hsp =>
          split at h
          · simp at h
          · next hL =>
            have := ih (c + 2) L st lt e h
            exact ⟨this.1, this.2.1, by omega, this.2.2.2.1, this.2.2.2.2.1,
              this.2.2.2.2.2.1, this.2.2.2.2.2.2⟩

/-! ## Claims C10, C6, C9, C3, C2 -/

/-- C10: when `consume(n)` fails because `n` exceeds the scanner's logical
length, the `TooMany` error is atomic — the buffer contents, logical length,
scan cursor and literal counter all keep their pre-call values. -/
theorem C10_consume_too_many_atomic (s : Scanner) (n : Nat) (h : s.buf.length < n) :
    Scanner_consume s n = (s, .error .tooMany) := by
  unfold Scanner_consume
  rw [if_pos (by omega)]

theorem C10_consume_too_many_atomic_witness :
    Scanner_consume ⟨[1, 2], 1, 1⟩ 3 = (⟨[1, 2], 1, 1⟩, .error .tooMany) :=
  C10_consume_too_many_atomic ⟨[1, 2], 1, 1⟩ 3 (by decide)

/-- C6 (divergence witness): on a reallocation failure `Scanner_feed` leaves
the logical length incremented by the fed length (scanner.c line 49 runs
before the line 50 capacity check and is never undone), so the observable
state is not what it was before the call: feeding one byte to an empty
scanner whose allocation fails leaves `buflen = 1` while the spec requires it
to stay `0`. -/
theorem C6_feed_alloc_failure_changes_length :
    feedStep 0 0 1 true = ((1, 0), false) ∧ (feedStep 0 0 1 true).1.1 ≠ 0 := by
  constructor
  · rfl
  · decide

/-- C9: a CRLF immediately preceded by the two bytes `{}` (an empty digit
span) is not a literal splice: `get` returns the complete view up to that
CRLF, with `literal_remaining` left at zero and the cursor at the CR. -/
theorem C9_empty_digit_span_not_literal (s : Scanner) (c : Nat)
    (hlit : s.literal_left = 0) (hf : findCRLFFrom s.buf s.start_find = some c)
    (h2 : 2 ≤ c) (hob : s.buf.getD (c - 2) 0 = 123) (hcb : s.buf.getD (c - 1) 0 = 125) :
    Scanner_get s = (⟨s.buf, c, 0⟩, .ok (s.buf.take (c + 2))) := by
  have hsplice : spliceLen s.buf c = none := by
    unfold spliceLen
    rw [if_pos ⟨by omega, hcb⟩]
    have hbd : backDigits s.buf (c - 1) = c - 1 := by
      have hc1 : c - 1 = (c - 2) + 1 := by omega
      rw [hc1, backDigits, hob]
      simp [isDigitByte]
    rw [if_pos (Or.inr (Or.inr hbd))]
  have hloop : scanGetLoop s.buf (s.buf.length + 1) s.start_find s.literal_left
      = ((c, 0), .ok c) := by
    rw [hlit, scanGetLoop, if_neg (by simp)]
    simp only [Nat.add_zero, hf, hsplice]
  unfold Scanner_get
  rw [hloop]

theorem C9_empty_digit_span_not_literal_witness :
    Scanner_get ⟨[97, 123, 125, 13, 10], 0, 0⟩
      = (⟨[97, 123, 125, 13, 10], 3, 0⟩, .ok [97, 123, 125, 13, 10]) :=
  C9_empty_digit_span_not_literal ⟨[97, 123, 125, 13, 10], 0, 0⟩ 3 rfl (by decide)
    (by decide) (by decide) (by decide)

/-- C3: across two successive failing `get` calls on the same buffer the scan
cursor never rewinds, including when an active literal is fully skipped and
the subsequent CRLF search fails. -/
theorem C3_cursor_monotonic (s s1 s2 : Scanner) (e1 e2 : ScanErr)
    (hinv : s.start_find ≤ s.buf.length)
    (h1 : Scanner_get s = (s1, .error e1)) (h2 : Scanner_get s1 = (s2, .error e2)) :
    s1.start_find ≤ s2.start_find := by
  unfold Scanner_get at h1
  rcases hl1 : scanGetLoop s.buf (s.buf.length + 1) s.start_find s.literal_left
    with ⟨⟨st, lt⟩, r⟩
  rw [hl1] at h1
  cases r with
  | ok c => simp at h1
  | error er =>
    simp only [Prod.mk.injEq, Except.error.injEq] at h1
    obtain ⟨hs1, -⟩ := h1
    subst hs1
    have hspec := scanGetLoop_err_spec s.buf (s.buf.length + 1) s.start_find
      s.literal_left st lt er hinv (by omega) hl1
    unfold Scanner_get at h2
    rcases hspec with ⟨-, hst, hlt, -⟩ | ⟨-, hlt, hcases⟩ | ⟨-, hlt, hle, -, c, L, hf, hsp, hL⟩
    · -- incomplete literal: the cursor is at the end of the buffer and the
      -- next call skips zero of the remaining literal bytes in place
      have hl2 : scanGetLoop s.buf (s.buf.length + 1) st lt
          = ((st + (s.buf.length - st), lt - (s.buf.length - st)), .error .incompleteLiteral) := by
        rw [scanGetLoop, if_pos ⟨hlt, by omega⟩]
      rw [hl2] at h2
      simp only [Prod.mk.injEq, Except.error.injEq] at h2
      obtain ⟨hs2, -⟩ := h2
      rw [← hs2]
      simp
    · -- incomplete line: the cursor sits one byte before the end, where no
      -- CRLF can start, so the next call fails in place
      have hnone : findCRLFFrom s.buf (st + lt) = none := by
        apply findCRLFFrom_oob
        omega
      have hl2 : scanGetLoop s.buf (s.buf.length + 1) st lt
          = ((if 0 < s.buf.length then s.buf.length - 1 else st + lt, 0),
             .error .incompleteLine) := by
        rw [scanGetLoop, if_neg (by omega), hnone]
      rw [hl2] at h2
      simp only [Prod.mk.injEq, Except.error.injEq] at h2
      obtain ⟨hs2, -⟩ := h2
      rw [← hs2]
      dsimp only
      rcases hcases with ⟨hb, hst⟩ | ⟨hb, hst⟩
      · rw [if_pos hb]; omega
      · rw [if_neg (by omega : ¬ 0 < s.buf.length)]; omega
    · -- bad literal length: the same CRLF and the same splice test fire again
      have hl2 : scanGetLoop s.buf (s.buf.length + 1) st lt
          = ((st + lt, 0), .error .badLiteralLength) := by
        rw [scanGetLoop, if_neg (by omega)]
        rw [hlt, Nat.add_zero]
        simp only [hf, hsp, if_pos hL]
      rw [hl2] at h2
      simp only [Prod.mk.injEq, Except.error.injEq] at h2
      obtain ⟨hs2, -⟩ := h2
      rw [← hs2]
      dsimp only
      omega

theorem C3_cursor_monotonic_witness :
    (⟨[97], 0, 0⟩ : Scanner).start_find ≤ (⟨[97], 0, 0⟩ : Scanner).start_find :=
  C3_cursor_monotonic ⟨[97], 0, 0⟩ ⟨[97], 0, 0⟩ ⟨[97], 0, 0⟩ .incompleteLine
    .incompleteLine (by decide) rfl rfl

/-- C2: when the first CRLF from the cursor carries a well-formed `{DIGITS+}`
suffix of value `L`, `get` records `L` opaque literal bytes and resumes after
them: if the payload is not fully buffered the call stops with
`IncompleteLiteral` and exactly the missing byte count, and any successful
call returns the single view from offset 0 to the end of a terminating CRLF
lying past the whole payload (so no CRLF inside the `L` payload bytes is ever
used as a terminator). -/
theorem C2_literal_splice_opacity (s : Scanner) (c L : Nat)
    (hlit : s.literal_left = 0) (hinv : s.start_find ≤ s.buf.length)
    (hf : findCRLFFrom s.buf s.start_find = some c)
    (hsp : spliceLen s.buf c = some L) (hL : L ≤ U64MAX) :
    (s.buf.length < c + 2 + L →
      Scanner_get s
        = (⟨s.buf, s.buf.length, c + 2 + L - s.buf.length⟩, .error .incompleteLiteral)) ∧
    (∀ s1 view, Scanner_get s = (s1, .ok view) →
      ∃ e, c + 2 + L ≤ e ∧ e + 2 ≤ s.buf.length ∧
        s.buf.getD e 0 = 13 ∧ s.buf.getD (e + 1) 0 = 10 ∧
        view = s.buf.take (e + 2) ∧ s1 = ⟨s.buf, e, 0⟩) := by
  obtain ⟨hc1, hc2, -, -⟩ := findCRLFFrom_some_spec _ _ _ hf
  have hstep : scanGetLoop s.buf (s.buf.length + 1) s.start_find s.literal_left
      = scanGetLoop s.buf s.buf.length (c + 2) L := by
    rw [hlit, scanGetLoop, if_neg (by simp)]
    simp only [Nat.add_zero, hf, hsp, if_neg (by omega : ¬ U64MAX < L)]
  constructor
  · intro hshort
    have hL0 : 0 < L := by omega
    obtain ⟨m, hm⟩ : ∃ m, s.buf.length = m + 1 := ⟨s.buf.length - 1, by omega⟩
    have hl2 : scanGetLoop s.buf s.buf.length (c + 2) L
        = (((c + 2) + (s.buf.length - (c + 2)), L - (s.buf.length - (c + 2))),
           .error .incompleteLiteral) := by
      rw [hm, scanGetLoop, if_pos ⟨hL0, by omega⟩]
      rw [← hm]
    have he1 : (c + 2) + (s.buf.length - (c + 2)) = s.buf.length := by omega
    have he2 : L - (s.buf.length - (c + 2)) = c + 2 + L - s.buf.length := by omega
    unfold Scanner_get
    rw [hstep, hl2, he1, he2]
  · intro s1 view hok
    unfold Scanner_get at hok
    rcases hl : scanGetLoop s.buf (s.buf.length + 1) s.start_find s.literal_left
      with ⟨⟨st, lt⟩, r⟩
    rw [hl] at hok
    cases r with
    | error er => simp at hok
    | ok e =>
      simp only [Prod.mk.injEq, Except.ok.injEq] at hok
      obtain ⟨hs1, hview⟩ := hok
      rw [hstep] at hl
      obtain ⟨hst, hlt, hge, hlen, hcr, hlf, -⟩ := scanGetLoop_ok_spec _ _ _ _ _ _ _ hl
      exact ⟨e, hge, hlen, hcr, hlf, hview.symm, by rw [← hs1, hst, hlt]⟩

theorem C2_literal_splice_opacity_witness :
    (Scanner_get ⟨[123, 50, 125, 13, 10, 88], 0, 0⟩
        = (⟨[123, 50, 125, 13, 10, 88], 6, 1⟩, .error .incompleteLiteral)) ∧
    (∃ e, 3 + 2 + 1 ≤ e ∧ e + 2 ≤ 8 ∧
      ([123, 49, 125, 13, 10, 88, 13, 10] : List Nat).getD e 0 = 13 ∧
      ([123, 49, 125, 13, 10, 88, 13, 10] : List Nat).getD (e + 1) 0 = 10 ∧
      ([123, 49, 125, 13, 10, 88, 13, 10] : List Nat)
        = ([123, 49, 125, 13, 10, 88, 13, 10] : List Nat).take (e + 2) ∧
      (⟨[123, 49, 125, 13, 10, 88, 13, 10], 6, 0⟩ : Scanner)
        = ⟨[123, 49, 125, 13, 10, 88, 13, 10], e, 0⟩) := by
  constructor
  · exact (C2_literal_splice_opacity ⟨[123, 50, 125, 13, 10, 88], 0, 0⟩ 3 2 rfl
      (by decide) (by decide) (by decide) (by decide)).1 (by decide)
  · exact (C2_literal_splice_opacity ⟨[123, 49, 125, 13, 10, 88, 13, 10], 0, 0⟩ 3 1 rfl
      (by decide) (by decide) (by decide) (by decide)).2
      ⟨[123, 49, 125, 13, 10, 88, 13, 10], 6, 0⟩ [123, 49, 125, 13, 10, 88, 13, 10] rfl

/-! ## Claim C7: unsigned 64-bit number parsing -/

lemma digits_foldl_ge (ds : List Nat) :
    ∀ acc, acc ≤ ds.foldl (fun a b => a * 10 + (b - 48)) acc := by
  induction ds with
  | nil => intro acc; simp
  | cons b rest ih =>
    intro acc
    rw [List.foldl_cons]
    calc acc ≤ acc * 10 + (b - 48) := by omega
      _ ≤ _ := ih _

lemma numScan_spec (ds : List Nat) :
    ∀ acc, (∀ b ∈ ds, isDigitByte b) → acc ≤ U64MAX →
      (if ds.foldl (fun a b => a * 10 + (b - 48)) acc ≤ U64MAX
       then numScan ds acc = .ok (ds.foldl (fun a b => a * 10 + (b - 48)) acc, ds.length)
       else numScan ds acc = .error ()) := by
  have hU : U64MAX = 18446744073709551615 := by norm_num [U64MAX]
  induction ds with
  | nil =>
    intro acc _ hacc
    rw [if_pos (by simpa using hacc)]
    simp [numScan]
  | cons b rest ih =>
    intro acc hmem hacc
    have hb : isDigitByte b := hmem b (by simp)
    have hd9 : b - 48 ≤ 9 := by simp [isDigitByte] at hb; omega
    have hUdiv : U64MAX / 10 = 1844674407370955161 := by rw [hU]
    have hUmod : U64MAX % 10 = 5 := by rw [hU]
    rw [List.foldl_cons]
    by_cases hchk : acc > U64MAX / 10 ∨ (acc = U64MAX / 10 ∧ (b - 48) > U64MAX % 10)
    · have hover : U64MAX < acc * 10 + (b - 48) := by
        rw [hUdiv] at hchk
        rw [hUmod] at hchk
        omega
      have hge := digits_foldl_ge rest (acc * 10 + (b - 48))
      rw [if_neg (by omega)]
      rw [numScan, if_pos hb, if_pos hchk]
    · have hacc2 : acc * 10 + (b - 48) ≤ U64MAX := by
        rw [hUdiv] at hchk
        rw [hUmod] at hchk
        omega
      have hrest := ih (acc * 10 + (b - 48)) (fun x hx => hmem x (by simp [hx])) hacc2
      rw [numScan, if_pos hb, if_neg hchk]
      by_cases hfin : rest.foldl (fun a b => a * 10 + (b - 48)) (acc * 10 + (b - 48)) ≤ U64MAX
      · rw [if_pos hfin] at hrest ⊢
        rw [hrest]
        simp
      · rw [if_neg hfin] at hrest ⊢
        rw [hrest]

/-- `digitsVal` agrees with the ordinary base-10 reading of the digit string,
so "the exact value" below is the denoted number. -/
lemma digitsVal_eq_ofDigits (ds : List Nat) :
    digitsVal ds = Nat.ofDigits 10 ((ds.map (fun b => b - 48)).reverse) := by
  suffices h : ∀ acc, ds.foldl (fun a b => a * 10 + (b - 48)) acc
      = acc * 10 ^ ds.length + Nat.ofDigits 10 ((ds.map (fun b => b - 48)).reverse) by
    have := h 0
    simpa [digitsVal] using this
  induction ds with
  | nil => intro acc; simp [Nat.ofDigits]
  | cons b rest ih =>
    intro acc
    rw [List.foldl_cons, ih]
    simp only [List.map_cons, List.reverse_cons, Nat.ofDigits_append, List.length_reverse,
      List.length_map, List.length_cons, Nat.ofDigits_cons, Nat.ofDigits_nil]
    ring

/-- C7: number parsing accepts exactly the digit strings whose value fits in
an unsigned 64-bit integer and returns that exact value; any digit string
denoting a larger value is a fatal parse error.  (`_parse_number` is the one
number-parsing routine; every context that parses a number calls it, directly
or through `parse_number`.) -/
lemma parse_number_cons (b : Nat) (rest : List Nat) :
    _parse_number (b :: rest)
      = match numScan (b :: rest) 0 with
        | .error _ => .error .numberOverflow
        | .ok (n, k) =>
          if k = 0 then .error .expectedNumber else .ok (n, (b :: rest).drop k) := rfl

theorem C7_number_u64_boundary (ds : List Nat) (hne : ds ≠ [])
    (hd : ∀ b ∈ ds, isDigitByte b) :
    (digitsVal ds ≤ U64MAX → _parse_number ds = .ok (digitsVal ds, [])) ∧
    (U64MAX < digitsVal ds → _parse_number ds = .error .numberOverflow) := by
  have hspec := numScan_spec ds 0 hd (by norm_num [U64MAX])
  have hdv : digitsVal ds = ds.foldl (fun a b => a * 10 + (b - 48)) 0 := rfl
  obtain ⟨b, rest, rfl⟩ : ∃ b rest, ds = b :: rest := by
    cases ds with
    | nil => exact absurd rfl hne
    | cons b rest => exact ⟨b, rest, rfl⟩
  constructor
  · intro hle
    rw [if_pos (by rw [← hdv]; exact hle)] at hspec
    rw [parse_number_cons]
    simp only [hspec]
    rw [if_neg (by simp)]
    rw [← hdv, List.drop_length]
  · intro hgt
    rw [if_neg (by rw [← hdv]; omega)] at hspec
    rw [parse_number_cons]
    simp only [hspec]

theorem C7_number_u64_boundary_witness :
    _parse_number (strBytes "18446744073709551615") = .ok (18446744073709551615, []) ∧
    _parse_number (strBytes "18446744073709551616") = .error .numberOverflow := by
  constructor
  · exact (C7_number_u64_boundary (strBytes "18446744073709551615") (by decide)
      (by decide)).1 (by decide)
  · exact (C7_number_u64_boundary (strBytes "18446744073709551616") (by decide)
      (by decide)).2 (by decide)

/-! ## Claim C4: quoted-string escapes and bare CR/LF -/

lemma qLoop_clean :
    ∀ (pre rest : List Nat), (∀ x ∈ pre, x ≠ 34 ∧ x ≠ 92) →
      qLoop (pre ++ 34 :: rest) = .ok (pre, pre.length) := by
  intro pre
  induction pre with
  | nil =>
    intro rest _
    rw [List.nil_append, qLoop.eq_def]
    simp
  | cons b pre2 ih =>
    intro rest hmem
    have hb := hmem b (by simp)
    rw [List.cons_append, qLoop.eq_def]
    simp only []
    rw [if_neg hb.1, if_neg hb.2]
    simp only [ih rest (fun x hx => hmem x (by simp [hx]))]
    simp

lemma qLoop_bad_escape :
    ∀ (pre : List Nat) (b : Nat) (post : List Nat),
      (∀ x ∈ pre, x ≠ 34 ∧ x ≠ 92) → b ≠ 34 → b ≠ 92 →
      qLoop (pre ++ 92 :: b :: post) = .error .invalidQuotedChar := by
  intro pre
  induction pre with
  | nil =>
    intro b post _ hb1 hb2
    rw [List.nil_append, qLoop.eq_def]
    simp only []
    rw [if_neg (by omega), if_pos trivial]
    rw [if_pos ⟨hb1, hb2⟩]
  | cons x pre2 ih =>
    intro b post hmem hb1 hb2
    have hx := hmem x (by simp)
    rw [List.cons_append, qLoop.eq_def]
    simp only []
    rw [if_neg hx.1, if_neg hx.2]
    simp only [ih b post (fun y hy => hmem y (by simp [hy])) hb1 hb2]

/-- C4 counterexample: a bare CR inside the quotes is not rejected — the
parse succeeds and the CR byte is included in the result, contradicting the
claim that a bare CR or LF is rejected with a `ParseError`. -/
theorem C4_bare_cr_accepted : parse_imap_string [34, 13, 34] = .ok [13] := rfl

/-- C4 as amended: a backslash escape is accepted only when the escaped byte
is `"` or `\` (any other escaped byte is a fatal `ParseError`), while a bare
CR or LF inside the quotes is accepted verbatim and included in the result
bytes. -/
theorem C4_escapes_and_bare_crlf (pre post : List Nat) (b : Nat)
    (hpre : ∀ x ∈ pre, x ≠ 34 ∧ x ≠ 92) :
    (b ≠ 34 → b ≠ 92 →
      parse_imap_string (34 :: (pre ++ 92 :: b :: post)) = .error .invalidQuotedChar) ∧
    parse_imap_string (34 :: (pre ++ [34])) = .ok pre := by
  constructor
  · intro hb1 hb2
    have hq := qLoop_bad_escape pre b post hpre hb1 hb2
    rw [parse_imap_string, if_neg (by simp)]
    have hps : parse_string (34 :: (pre ++ 92 :: b :: post)) = .error .invalidQuotedChar := by
      rw [parse_string]
      simp only [getc, ebind_ok, if_true]
      simp only [hq]
    simp only [hps]
  · have hq := qLoop_clean pre [] hpre
    rw [parse_imap_string, if_neg (by simp)]
    have hps : parse_string (34 :: (pre ++ [34])) = .ok (pre, []) := by
      rw [parse_string]
      simp only [getc, ebind_ok, if_true]
      simp only [hq, List.drop_left]
      simp [expectc]
    simp only [hps]
    simp

theorem C4_escapes_and_bare_crlf_witness :
    parse_imap_string [34, 13, 92, 110, 98, 34] = .error .invalidQuotedChar ∧
    parse_imap_string [34, 13, 10, 34] = .ok [13, 10] := by
  constructor
  · exact (C4_escapes_and_bare_crlf [13] [98, 34] 110 (by decide)).1 (by decide) (by decide)
  · exact (C4_escapes_and_bare_crlf [13, 10] [] 0 (by decide)).2

/-! ## Claim C8: whole-input requirement of the three entry points -/

/-- C8: each of the three parser entry points returns a `ParseError` on empty
input, and returns a `ParseError` whenever its grammar production completes
with unconsumed trailing bytes. -/
theorem C8_entry_points_whole_input (input : List Nat) :
    (input = [] →
      parse_response_line input = .error .nothingToParse ∧
      parse_imap_string input = .error .nothingToParse ∧
      parse_imap_astring input = .error .nothingToParse) ∧
    (∀ r rest, parse_response input = .ok (r, rest) → rest ≠ [] →
      parse_response_line input = .error .trailing) ∧
    (∀ r rest, parse_string input = .ok (r, rest) → rest ≠ [] →
      parse_imap_string input = .error .trailing) ∧
    (∀ r rest, parse_astring input = .ok (r, rest) → rest ≠ [] →
      parse_imap_astring input = .error .trailing) := by
  refine ⟨?_, ?_, ?_, ?_⟩
  · rintro rfl
    exact ⟨rfl, rfl, rfl⟩
  · intro r rest hok hne
    have hne0 : input ≠ [] := by
      rintro rfl
      rw [show parse_response [] = Except.error PErr.truncated from rfl] at hok
      simp at hok
    rw [parse_response_line, if_neg (by simp [hne0])]
    simp only [hok]
    rw [if_pos hne]
  · intro r rest hok hne
    have hne0 : input ≠ [] := by
      rintro rfl
      rw [show parse_string [] = Except.error PErr.truncated from rfl] at hok
      simp at hok
    rw [parse_imap_string, if_neg (by simp [hne0])]
    simp only [hok]
    rw [if_pos hne]
  · intro r rest hok hne
    have hne0 : input ≠ [] := by
      rintro rfl
      rw [show parse_astring [] = Except.error PErr.truncated from rfl] at hok
      simp at hok
    rw [parse_imap_astring, if_neg (by simp [hne0])]
    simp only [hok]
    rw [if_pos hne]

theorem C8_entry_points_whole_input_witness :
    (parse_response_line [] = .error .nothingToParse ∧
      parse_imap_string [] = .error .nothingToParse ∧
      parse_imap_astring [] = .error .nothingToParse) ∧
    parse_response_line [43, 32, 120, 13, 10, 32] = .error .trailing ∧
    parse_imap_string [34, 34, 32] = .error .trailing ∧
    parse_imap_astring [97, 40] = .error .trailing := by
  refine ⟨(C8_entry_points_whole_input []).1 rfl, ?_, ?_, ?_⟩
  · exact (C8_entry_points_whole_input [43, 32, 120, 13, 10, 32]).2.1 _ _ rfl (by decide)
  · exact (C8_entry_points_whole_input [34, 34, 32]).2.2.1 _ _ rfl (by decide)
  · exact (C8_entry_points_whole_input [97, 40]).2.2.2 _ _ rfl (by decide)

/-! ## Claim C5: the ESEARCH search-correlator tag -/

lemma expects_append (s w : List Nat) : expects s (s ++ w) = .ok w := by
  unfold expects
  rw [if_neg (by simp), if_neg (by simp [List.take_left])]
  rw [List.drop_left]

lemma parse_string_quoted_clean (t R : List Nat) (ht : ∀ x ∈ t, x ≠ 34 ∧ x ≠ 92) :
    parse_string (34 :: (t ++ 34 :: R)) = .ok (t, R) := by
  rw [parse_string]
  simp only [getc, ebind_ok, if_true]
  simp only [qLoop_clean t R ht, List.drop_left]
  simp [expectc]

lemma parse_string_ascii_quoted_clean (t R : List Nat)
    (ht : ∀ x ∈ t, x ≤ 127 ∧ x ≠ 34 ∧ x ≠ 92) :
    parse_string_ascii (34 :: (t ++ 34 :: R)) = .ok (t, R) := by
  rw [parse_string_ascii]
  simp only [parse_string_quoted_clean t R (fun x hx => (ht x hx).2), ebind_ok]
  rw [if_pos ?_]
  simp only [asciiOk, List.all_eq_true, decide_eq_true_eq]
  exact fun x hx => (ht x hx).1

/-- C5 counterexample: a bare-atom search-correlator tag is rejected —
`parse_esearch_response` hands the tag to `parse_string_ascii` (parser.c line
1413), which accepts only a quoted string or a literal, so an astring-shaped
atom tag makes `parse_response_line` fail instead of succeeding with that
tag. -/
theorem C5_atom_tag_rejected :
    parse_response_line (strBytes "* ESEARCH (TAG A1) MIN 2" ++ [13, 10])
      = .error .invalidString := rfl

/-- C5 as amended: the search-correlator carries its tag as an IMAP string
(quoted or literal), decoded as ASCII — not as an astring.  Every quoted tag
of ASCII bytes free of `"` and `\` parses to an `Esearch` holding exactly
those tag bytes. -/
theorem C5_esearch_tag_parsed_as_string (t : List Nat)
    (ht : ∀ x ∈ t, x ≤ 127 ∧ x ≠ 34 ∧ x ≠ 92) :
    parse_response_line (strBytes "* ESEARCH (TAG " ++ 34 :: t ++ [34, 41, 13, 10])
      = .ok (.untagged .IMAP4_ESEARCH (.esearch ⟨some t, false, []⟩)) := by
  have hps : parse_string_ascii (34 :: (t ++ 34 :: [41, 13, 10])) = .ok (t, [41, 13, 10]) :=
    parse_string_ascii_quoted_clean t [41, 13, 10] ht
  have hese : parse_esearch_response
      (32 :: 40 :: 84 :: 65 :: 71 :: 32 :: 34 :: (t ++ [34, 41, 13, 10]))
      = .ok (⟨some t, false, []⟩, [13, 10]) := by
    rw [parse_esearch_response]
    simp only [peekc, ebind_ok]
    rw [if_neg (by simp)]
    simp only [getc, ebind_ok, peekc, if_true]
    have he : expects (strBytes "(TAG ")
        (40 :: 84 :: 65 :: 71 :: 32 :: 34 :: (t ++ [34, 41, 13, 10]))
        = .ok (34 :: (t ++ [34, 41, 13, 10])) :=
      expects_append (strBytes "(TAG ") (34 :: (t ++ [34, 41, 13, 10]))
    simp only [he, ebind_ok]
    simp only [hps, ebind_ok]
    simp [expectc, esearchLoop, peekc]
  have hpt : parse_token
      (69 :: 83 :: 69 :: 65 :: 82 :: 67 :: 72 :: 32 :: 40 :: 84 :: 65 :: 71 :: 32 :: 34 ::
        (t ++ [34, 41, 13, 10]))
      = .ok (some .IMAP4_ESEARCH,
        32 :: 40 :: 84 :: 65 :: 71 :: 32 :: 34 :: (t ++ [34, 41, 13, 10])) := rfl
  have hin : strBytes "* ESEARCH (TAG " ++ 34 :: t ++ [34, 41, 13, 10]
      = 42 :: 32 :: 69 :: 83 :: 69 :: 65 :: 82 :: 67 :: 72 :: 32 :: 40 :: 84 :: 65 :: 71 ::
        32 :: 34 :: (t ++ [34, 41, 13, 10]) := rfl
  rw [hin]
  have hresp : parse_response
      (42 :: 32 :: 69 :: 83 :: 69 :: 65 :: 82 :: 67 :: 72 :: 32 :: 40 :: 84 :: 65 :: 71 ::
        32 :: 34 :: (t ++ [34, 41, 13, 10]))
      = .ok (.untagged .IMAP4_ESEARCH (.esearch ⟨some t, false, []⟩), []) := by
    rw [parse_response]
    simp only [peekc, ebind_ok, if_true]
    rw [parse_response_data]
    have he2 : expects (strBytes "* ")
        (42 :: 32 :: 69 :: 83 :: 69 :: 65 :: 82 :: 67 :: 72 :: 32 :: 40 :: 84 :: 65 :: 71 ::
          32 :: 34 :: (t ++ [34, 41, 13, 10]))
        = .ok (69 :: 83 :: 69 :: 65 :: 82 :: 67 :: 72 :: 32 :: 40 :: 84 :: 65 :: 71 ::
          32 :: 34 :: (t ++ [34, 41, 13, 10])) :=
      expects_append (strBytes "* ") _
    simp only [he2, ebind_ok, peekc]
    rw [if_neg (by decide)]
    simp only [hpt, ebind_ok]
    simp only [hese, ebind_ok]
    rfl
  rw [parse_response_line, if_neg (by simp)]
  simp only [hresp]
  simp

theorem C5_esearch_tag_parsed_as_string_witness :
    parse_response_line (strBytes "* ESEARCH (TAG " ++ 34 :: [65, 49] ++ [34, 41, 13, 10])
      = .ok (.untagged .IMAP4_ESEARCH (.esearch ⟨some [65, 49], false, []⟩)) :=
  C5_esearch_tag_parsed_as_string [65, 49] (by decide)

/-- C1 counterexample: for the claim-legal single-line output
`{3}\r\n{1}\r\n` the byte-at-a-time feed/get/consume protocol does not yield
the line — the scanner misreads the payload's `{1}` as a new literal splice
and ends stuck with a non-empty buffer and a literal still pending. -/
theorem C1_round_trip_fails_on_claim_legal_output :
    claimLegalLine lineCounterexample = true ∧
    drive (lineBytes lineCounterexample)
      ≠ ([lineBytes lineCounterexample], ⟨[], 0, 0⟩) := by
  constructor
  · rfl
  · decide

lemma findCRLF_take_none :
    ∀ (l : List Nat), findCRLF l = none → ∀ k, findCRLF (l.take k) = none := by
  intro l
  induction l with
  | nil => intro _ k; simp [findCRLF]
  | cons b1 rest ih =>
    intro h k
    cases k with
    | zero => simp [findCRLF]
    | succ k2 =>
      cases rest with
      | nil => cases k2 <;> simp [findCRLF]
      | cons b2 rest2 =>
        rw [findCRLF] at h
        by_cases hp : b1 = 13 ∧ b2 = 10
        · rw [if_pos hp] at h; cases h
        · rw [if_neg hp] at h
          simp only [Option.map_eq_none'] at h
          have ht := ih h k2
          cases k2 with
          | zero => simp [findCRLF]
          | succ k3 =>
            simp only [List.take_succ_cons] at ht ⊢
            rw [findCRLF, if_neg hp]
            simp only [ht, Option.map_none']

lemma findCRLF_none_of_no_lf :
    ∀ (l : List Nat), (∀ b ∈ l, b ≠ 10) → findCRLF l = none := by
  intro l
  induction l with
  | nil => simp [findCRLF]
  | cons b1 rest ih =>
    intro h
    cases rest with
    | nil => simp [findCRLF]
    | cons b2 rest2 =>
      rw [findCRLF]
      rw [if_neg (by intro hp; exact h b2 (by simp) hp.2)]
      rw [ih (fun x hx => h x (by simp [hx]))]
      rfl

lemma findCRLF_append_none :
    ∀ (l1 l2 : List Nat), findCRLF l1 = none → findCRLF l2 = none →
      (l1 = [] ∨ l2 = [] ∨ ¬(l1.getLast? = some 13 ∧ l2.head? = some 10)) →
      findCRLF (l1 ++ l2) = none := by
  intro l1
  induction l1 with
  | nil => intro l2 _ h2 _; simpa using h2
  | cons b1 rest ih =>
    intro l2 h1 h2 hbd
    cases rest with
    | nil =>
      cases l2 with
      | nil => simp [findCRLF]
      | cons c1 l2t =>
        have hb : ¬(b1 = 13 ∧ c1 = 10) := by
          rcases hbd with h | h | h
          · cases h
          · cases h
          · intro hp
            exact h ⟨by simp [hp.1], by simp [hp.2]⟩
        show findCRLF (b1 :: c1 :: l2t) = none
        rw [findCRLF, if_neg hb, h2]
        rfl
    | cons b2 rest2 =>
      rw [findCRLF] at h1
      by_cases hp : b1 = 13 ∧ b2 = 10
      · rw [if_pos hp] at h1; cases h1
      · rw [if_neg hp] at h1
        simp only [Option.map_eq_none'] at h1
        have htail : findCRLF ((b2 :: rest2) ++ l2) = none := by
          apply ih l2 h1 h2
          rcases hbd with h | h | h
          · cases h
          · exact Or.inr (Or.inl h)
          · right; right
            intro hc
            apply h
            refine ⟨?_, hc.2⟩
            rw [show (b1 :: b2 :: rest2).getLast? = (b2 :: rest2).getLast? by simp]
            exact hc.1
        show findCRLF (b1 :: ((b2 :: rest2) ++ l2)) = none
        rw [findCRLF.eq_def]
        simp only [List.cons_append]
        rw [if_neg (by simpa using hp)]
        rw [show (b2 :: rest2) ++ l2 = b2 :: (rest2 ++ l2) from rfl] at htail
        rw [htail]
        rfl

/-- Dropping to one byte before the end of `B` inside `B ++ h` yields `h`
prefixed by `B`'s last byte (or `h` itself when `B` is empty). -/
lemma dropPre (B h : List Nat) :
    (B ++ h).drop (B.length - 1)
      = (match B.getLast? with | some x => x :: h | none => h) := by
  rcases List.eq_nil_or_concat B with rfl | ⟨Q, x, rfl⟩
  · simp
  · simp only [List.concat_eq_append]
    rw [show (Q ++ [x]).length - 1 = Q.length by simp]
    rw [List.append_assoc, List.drop_left]
    simp

lemma getD_append_index (l1 l2 : List Nat) (i : Nat) :
    (l1 ++ l2).getD (l1.length + i) 0 = l2.getD i 0 := by
  rw [List.getD_append_right l1 l2 0 (l1.length + i) (by omega)]
  congr 1
  omega

lemma driveStep_error (vs : List (List Nat)) (st : Scanner) (b : Nat) (s1 : Scanner)
    (e : ScanErr) (h : Scanner_get (Scanner_feed st [b]) = (s1, .error e)) :
    driveStep (vs, st) b = (vs, s1) := by
  unfold driveStep
  simp only [h]

lemma driveStep_ok (vs : List (List Nat)) (st : Scanner) (b : Nat) (s1 : Scanner)
    (v : List Nat) (s2 : Scanner)
    (h : Scanner_get (Scanner_feed st [b]) = (s1, .ok v))
    (h2 : Scanner_consume s1 v.length = (s2, .ok ())) :
    driveStep (vs, st) b = (vs ++ [v], s2) := by
  unfold driveStep
  simp only [h, h2]

lemma Scanner_get_of_loop_err (s : Scanner) (st lt : Nat) (e : ScanErr)
    (h : scanGetLoop s.buf (s.buf.length + 1) s.start_find s.literal_left
      = ((st, lt), .error e)) :
    Scanner_get s = (⟨s.buf, st, lt⟩, .error e) := by
  unfold Scanner_get
  simp only [h]

lemma Scanner_get_of_loop_ok (s : Scanner) (st lt c : Nat)
    (h : scanGetLoop s.buf (s.buf.length + 1) s.start_find s.literal_left
      = ((st, lt), .ok c)) :
    Scanner_get s = (⟨s.buf, st, lt⟩, .ok (s.buf.take (c + 2))) := by
  unfold Scanner_get
  simp only [h]

/-- Feeding a CRLF-free chunk byte by byte: every `get` fails with
`IncompleteLine` and the cursor trails one byte behind the end.  The
hypothesis also excludes a CRLF pair straddling the boundary with the last
byte already in the buffer. -/
lemma feedChunk :
    ∀ (h B : List Nat) (vs : List (List Nat)),
      findCRLF (match B.getLast? with | some x => x :: h | none => h) = none →
      List.foldl driveStep (vs, ⟨B, B.length - 1, 0⟩) h
        = (vs, ⟨B ++ h, (B ++ h).length - 1, 0⟩) := by
  intro h
  induction h with
  | nil => intro B vs _; simp
  | cons b h2 ih =>
    intro B vs hnone
    have htwo : findCRLF ((B ++ [b]).drop (B.length - 1)) = none := by
      rw [dropPre B [b]]
      cases hbl : B.getLast? with
      | none => simp [findCRLF]
      | some x =>
        rw [hbl] at hnone
        have := findCRLF_take_none _ hnone 2
        simpa using this
    have hfnone : findCRLFFrom (B ++ [b]) (B.length - 1) = none := by
      unfold findCRLFFrom
      rw [htwo]
      rfl
    have hloop : scanGetLoop (B ++ [b]) ((B ++ [b]).length + 1) (B.length - 1) 0
        = (((B ++ [b]).length - 1, 0), .error .incompleteLine) := by
      rw [scanGetLoop]
      rw [if_neg (by simp)]
      rw [Nat.add_zero, hfnone]
      rw [if_pos (by simp)]
    have hget : Scanner_get ⟨B ++ [b], B.length - 1, 0⟩
        = (⟨B ++ [b], (B ++ [b]).length - 1, 0⟩, .error .incompleteLine) :=
      Scanner_get_of_loop_err ⟨B ++ [b], B.length - 1, 0⟩ _ _ _ hloop
    rw [List.foldl_cons]
    rw [driveStep_error vs ⟨B, B.length - 1, 0⟩ b _ _ hget]
    have hnext : findCRLF
        (match (B ++ [b]).getLast? with | some x => x :: h2 | none => h2) = none := by
      rw [show ((B ++ [b]).getLast?) = some b from by simp]
      cases hbl : B.getLast? with
      | none =>
        rw [hbl] at hnone
        simpa using hnone
      | some x =>
        rw [hbl] at hnone
        simpa using findCRLF_drop_none _ (by simpa using hnone) 1
    have := ih (B ++ [b]) vs hnext
    rw [this]
    simp

/-- Feeding a nonempty literal payload byte by byte from the state just after
its splice header: the `get` calls fail with `IncompleteLiteral` until the
skip completes, and the final byte's call fully skips the literal, fails the
CRLF search at the empty remainder and rewinds the cursor onto the payload's
last byte. -/
lemma feedPayload :
    ∀ (p B : List Nat) (vs : List (List Nat)), p ≠ [] →
      List.foldl driveStep (vs, ⟨B, B.length, p.length⟩) p
        = (vs, ⟨B ++ p, (B ++ p).length - 1, 0⟩) := by
  intro p
  induction p with
  | nil => intro B vs hne; exact absurd rfl hne
  | cons b p2 ih =>
    intro B vs _
    rw [List.foldl_cons]
    by_cases hp2 : p2 = []
    · subst hp2
      simp only [List.foldl_nil]
      have hloop : scanGetLoop (B ++ [b]) ((B ++ [b]).length + 1) B.length 1
          = (((B ++ [b]).length - 1, 0), .error .incompleteLine) := by
        rw [scanGetLoop]
        rw [if_neg (by simp)]
        rw [findCRLFFrom_oob _ _ (by simp)]
        rw [if_pos (by simp)]
      have hget : Scanner_get ⟨B ++ [b], B.length, 1⟩
          = (⟨B ++ [b], (B ++ [b]).length - 1, 0⟩, .error .incompleteLine) :=
        Scanner_get_of_loop_err ⟨B ++ [b], B.length, 1⟩ _ _ _ hloop
      rw [show ([b] : List Nat).length = 1 from rfl]
      rw [driveStep_error vs ⟨B, B.length, 1⟩ b _ _ (by simpa using hget)]
      simp
    · have hplen : 0 < p2.length := List.length_pos.mpr hp2
      have hloop : scanGetLoop (B ++ [b]) ((B ++ [b]).length + 1) B.length (b :: p2).length
          = ((B.length + ((B ++ [b]).length - B.length),
              (b :: p2).length - ((B ++ [b]).length - B.length)),
            .error .incompleteLiteral) := by
        rw [scanGetLoop]
        rw [if_pos ⟨by simp, by
          simp only [List.length_append, List.length_cons, List.length_nil]
          omega⟩]
      have hget : Scanner_get ⟨B ++ [b], B.length, (b :: p2).length⟩
          = (⟨B ++ [b], B.length + ((B ++ [b]).length - B.length),
              (b :: p2).length - ((B ++ [b]).length - B.length)⟩,
            .error .incompleteLiteral) :=
        Scanner_get_of_loop_err ⟨B ++ [b], B.length, (b :: p2).length⟩ _ _ _ hloop
      rw [driveStep_error vs ⟨B, B.length, (b :: p2).length⟩ b _ _ (by simpa using hget)]
      simpa using ih (B ++ [b]) vs hp2

/-- The backwards digit scan skips over a block of digit bytes. -/
lemma backDigits_skip (buf : List Nat) :
    ∀ (k p : Nat), (∀ j, j < k → isDigitByte (buf.getD (p + j) 0) = true) →
      backDigits buf (p + k) = backDigits buf p := by
  intro k
  induction k with
  | zero => intro p _; rfl
  | succ k2 ih =>
    intro p hd
    rw [show p + (k2 + 1) = (p + k2) + 1 from rfl]
    rw [backDigits]
    rw [if_pos (hd k2 (by omega))]
    exact ih p (fun j hj => hd j (by omega))

/-- The backwards digit scan stops just above a non-digit byte. -/
lemma backDigits_stop (buf : List Nat) (p : Nat)
    (h : isDigitByte (buf.getD p 0) = false) :
    backDigits buf (p + 1) = p + 1 := by
  rw [backDigits, if_neg (by rw [h]; exact Bool.false_ne_true)]

lemma header_digit_at (Q digs rest : List Nat) (hall : digs.all isDigitByte = true) :
    ∀ j, j < digs.length →
      isDigitByte ((Q ++ 123 :: (digs ++ rest)).getD (Q.length + 1 + j) 0) = true := by
  intro j hj
  rw [show Q.length + 1 + j = Q.length + (1 + j) from by omega]
  rw [getD_append_index Q (123 :: (digs ++ rest)) (1 + j)]
  rw [show 1 + j = j + 1 from by omega]
  rw [List.getD_cons_succ]
  rw [List.getD_append digs rest 0 j hj]
  have hmem : digs.getD j 0 ∈ digs := by
    rw [List.getD_eq_getElem digs 0 hj]
    exact List.getElem_mem hj
  exact List.all_eq_true.mp hall _ hmem

/-- The literal-splice test of `Scanner_get` at the CRLF terminating a genuine
`{DIGITS}` header reads back exactly the digit span and yields its value. -/
lemma spliceLen_at_header (Q digs rest : List Nat) (hne : digs ≠ [])
    (hall : digs.all isDigitByte = true) :
    spliceLen (Q ++ 123 :: digs ++ 125 :: rest) (Q.length + digs.length + 2)
      = some (digitsVal digs) := by
  have hlen : 0 < digs.length := List.length_pos.mpr hne
  simp only [List.append_assoc, List.cons_append]
  have h125 : (Q ++ 123 :: (digs ++ 125 :: rest)).getD (Q.length + digs.length + 1) 0
      = 125 := by
    rw [show Q.length + digs.length + 1 = Q.length + (1 + digs.length) from by omega]
    rw [getD_append_index Q (123 :: (digs ++ 125 :: rest)) (1 + digs.length)]
    rw [show 1 + digs.length = digs.length + 1 from by omega]
    rw [List.getD_cons_succ]
    rw [show digs.length = digs.length + 0 from rfl]
    rw [getD_append_index digs (125 :: rest) 0]
    rfl
  have h123 : (Q ++ 123 :: (digs ++ 125 :: rest)).getD Q.length 0 = 123 := by
    have := getD_append_index Q (123 :: (digs ++ 125 :: rest)) 0
    simpa using this
  have hback : backDigits (Q ++ 123 :: (digs ++ 125 :: rest)) (Q.length + 1 + digs.length)
      = Q.length + 1 := by
    rw [backDigits_skip _ digs.length (Q.length + 1)
      (header_digit_at Q digs (125 :: rest) hall)]
    exact backDigits_stop _ Q.length (by rw [h123]; rfl)
  have hdroptake : (((Q ++ 123 :: (digs ++ 125 :: rest)).drop (Q.length + 1)).take
      digs.length) = digs := by
    rw [show Q ++ 123 :: (digs ++ 125 :: rest) = (Q ++ [123]) ++ (digs ++ 125 :: rest)
      from by simp]
    rw [show Q.length + 1 = (Q ++ [123]).length from by simp]
    rw [List.drop_left]
    exact List.take_left digs (125 :: rest)
  simp only [spliceLen]
  rw [if_pos ⟨by omega, by
    rw [show Q.length + digs.length + 2 - 1 = Q.length + digs.length + 1 from by omega]
    exact h125⟩]
  rw [show Q.length + digs.length + 2 - 1 = Q.length + 1 + digs.length from by omega]
  rw [hback]
  rw [if_neg (by
    push_neg
    refine ⟨by omega, ?_, by omega⟩
    rw [show Q.length + 1 - 1 = Q.length from by omega]
    exact h123)]
  rw [show Q.length + 1 + digs.length - (Q.length + 1) = digs.length from by omega]
  rw [hdroptake]

/-- The bytes of a `{DIGITS}` header up to and including its CR contain no LF. -/
lemma headerTail_noLF (digs : List Nat) (hall : digs.all isDigitByte = true) :
    findCRLF (123 :: (digs ++ [125, 13])) = none := by
  apply findCRLF_none_of_no_lf
  intro b hb
  simp at hb
  rcases hb with rfl | hb | rfl | rfl
  · decide
  · have := List.all_eq_true.mp hall b hb
    simp [isDigitByte] at this
    omega
  · decide
  · decide

lemma chunk1_noCRLF (hd digs : List Nat) (hhd : findCRLF hd = none)
    (hall : digs.all isDigitByte = true) :
    findCRLF (hd ++ 123 :: (digs ++ [125, 13])) = none := by
  apply findCRLF_append_none hd _ hhd (headerTail_noLF digs hall)
  right; right
  intro hc
  have := hc.2
  simp at this

lemma lastChunk_noCRLF (lastHd : List Nat) (h : findCRLF lastHd = none) :
    findCRLF (lastHd ++ [13]) = none := by
  apply findCRLF_append_none lastHd [13] h rfl
  right; right
  intro hc
  have := hc.2
  simp at this

/-- Prepending the last already-buffered byte to a CRLF-free chunk stays
CRLF-free when the byte pair at the seam is not CR LF. -/
lemma lastCons_noCRLF (B h : List Nat) (hh : findCRLF h = none)
    (hbd : ¬(B.getLast? = some 13 ∧ h.head? = some 10)) :
    findCRLF (match B.getLast? with | some x => x :: h | none => h) = none := by
  cases hbl : B.getLast? with
  | none => exact hh
  | some x =>
    apply findCRLF_append_none [x] h rfl hh
    right; right
    intro hc
    apply hbd
    constructor
    · rw [hbl]
      have := hc.1
      simp at this
      rw [this]
    · exact hc.2

lemma head_lastChunk (lastHd : List Nat) :
    (lastHd ++ [13]).head? = some (nextFirstByte [] lastHd) := by
  cases lastHd <;> rfl

lemma head_chunk1 (sp : Splice) (rest : List Splice) (lastHd : List Nat) :
    (sp.hd ++ 123 :: (sp.digs ++ [125, 13])).head?
      = some (nextFirstByte (sp :: rest) lastHd) := by
  cases h : sp.hd with
  | nil => simp [nextFirstByte, h]
  | cons b t => simp [nextFirstByte, h]

/-- The get loop entered with the cursor at the end of the buffer and a
pending literal reports the whole literal as missing without moving. -/
lemma scanGetLoop_at_end_lit (buf : List Nat) (fuel lit : Nat) (hf : fuel ≠ 0)
    (hlit : 0 < lit) :
    scanGetLoop buf fuel buf.length lit
      = ((buf.length, lit), .error .incompleteLiteral) := by
  cases fuel with
  | zero => exact absurd rfl hf
  | succ f =>
    rw [scanGetLoop]
    rw [if_pos ⟨hlit, by omega⟩]
    simp

/-- The get loop entered with the cursor at the end of a nonempty buffer and
no pending literal fails the CRLF search and rewinds onto the last byte. -/
lemma scanGetLoop_at_end_nolit (buf : List Nat) (fuel : Nat) (hf : fuel ≠ 0)
    (hbuf : 0 < buf.length) :
    scanGetLoop buf fuel buf.length 0
      = ((buf.length - 1, 0), .error .incompleteLine) := by
  cases fuel with
  | zero => exact absurd rfl hf
  | succ f =>
    rw [scanGetLoop]
    rw [if_neg (by simp)]
    rw [Nat.add_zero]
    rw [findCRLFFrom_oob buf buf.length (by omega)]
    rw [if_pos hbuf]

/-- Feeding the LF that completes a `{DIGITS}CRLF` splice header with nonzero
length: `get` detects the splice and records the pending literal. -/
lemma feedHeaderLF_pos (Q digs : List Nat) (vs : List (List Nat))
    (hne : digs ≠ []) (hall : digs.all isDigitByte = true)
    (hmax : digitsVal digs ≤ U64MAX) (hN : 0 < digitsVal digs) :
    driveStep (vs, ⟨Q ++ 123 :: (digs ++ [125, 13]), Q.length + digs.length + 2, 0⟩) 10
      = (vs, ⟨Q ++ 123 :: (digs ++ [125, 13, 10]),
              Q.length + digs.length + 4, digitsVal digs⟩) := by
  have hlen2 : (Q ++ 123 :: (digs ++ [125, 13, 10])).length
      = Q.length + digs.length + 4 := by
    simp only [List.length_append, List.length_cons, List.length_nil]
    omega
  have hQl : (Q ++ 123 :: (digs ++ [125])).length = Q.length + digs.length + 2 := by
    simp only [List.length_append, List.length_cons, List.length_nil]
    omega
  have hfind : findCRLFFrom (Q ++ 123 :: (digs ++ [125, 13, 10]))
      (Q.length + digs.length + 2) = some (Q.length + digs.length + 2) := by
    unfold findCRLFFrom
    have hdrop : (Q ++ 123 :: (digs ++ [125, 13, 10])).drop (Q.length + digs.length + 2)
        = [13, 10] := by
      rw [show Q ++ 123 :: (digs ++ [125, 13, 10])
        = (Q ++ 123 :: (digs ++ [125])) ++ [13, 10] from by simp]
      rw [← hQl]
      exact List.drop_left _ _
    rw [hdrop]
    simp [findCRLF]
  have hsplice : spliceLen (Q ++ 123 :: (digs ++ [125, 13, 10]))
      (Q.length + digs.length + 2) = some (digitsVal digs) := by
    have := spliceLen_at_header Q digs [13, 10] hne hall
    simp only [List.append_assoc, List.cons_append] at this
    exact this
  have hfeed : Scanner_feed ⟨Q ++ 123 :: (digs ++ [125, 13]),
      Q.length + digs.length + 2, 0⟩ [10]
      = ⟨Q ++ 123 :: (digs ++ [125, 13, 10]), Q.length + digs.length + 2, 0⟩ := by
    simp [Scanner_feed]
  have hloop : scanGetLoop (Q ++ 123 :: (digs ++ [125, 13, 10]))
      ((Q ++ 123 :: (digs ++ [125, 13, 10])).length + 1) (Q.length + digs.length + 2) 0
      = (((Q ++ 123 :: (digs ++ [125, 13, 10])).length, digitsVal digs),
        .error .incompleteLiteral) := by
    rw [scanGetLoop]
    rw [if_neg (by simp)]
    rw [Nat.add_zero]
    simp only [hfind]
    simp only [hsplice]
    rw [if_neg (by omega)]
    rw [show Q.length + digs.length + 2 + 2
      = (Q ++ 123 :: (digs ++ [125, 13, 10])).length from by rw [hlen2]]
    exact scanGetLoop_at_end_lit _ _ _ (by rw [hlen2]; omega) hN
  have hget := Scanner_get_of_loop_err
    ⟨Q ++ 123 :: (digs ++ [125, 13, 10]), Q.length + digs.length + 2, 0⟩ _ _ _ hloop
  rw [driveStep_error vs _ 10 _ _ (by rw [hfeed]; exact hget)]
  rw [hlen2]

/-- Feeding the LF that completes a `{DIGITS}CRLF` splice header of length
zero: `get` records the splice, skips nothing, fails the next CRLF search at
the end of the buffer and rewinds onto the LF. -/
lemma feedHeaderLF_zero (Q digs : List Nat) (vs : List (List Nat))
    (hne : digs ≠ []) (hall : digs.all isDigitByte = true)
    (hzero : digitsVal digs = 0) :
    driveStep (vs, ⟨Q ++ 123 :: (digs ++ [125, 13]), Q.length + digs.length + 2, 0⟩) 10
      = (vs, ⟨Q ++ 123 :: (digs ++ [125, 13, 10]), Q.length + digs.length + 3, 0⟩) := by
  have hlen2 : (Q ++ 123 :: (digs ++ [125, 13, 10])).length
      = Q.length + digs.length + 4 := by
    simp only [List.length_append, List.length_cons, List.length_nil]
    omega
  have hQl : (Q ++ 123 :: (digs ++ [125])).length = Q.length + digs.length + 2 := by
    simp only [List.length_append, List.length_cons, List.length_nil]
    omega
  have hfind : findCRLFFrom (Q ++ 123 :: (digs ++ [125, 13, 10]))
      (Q.length + digs.length + 2) = some (Q.length + digs.length + 2) := by
    unfold findCRLFFrom
    have hdrop : (Q ++ 123 :: (digs ++ [125, 13, 10])).drop (Q.length + digs.length + 2)
        = [13, 10] := by
      rw [show Q ++ 123 :: (digs ++ [125, 13, 10])
        = (Q ++ 123 :: (digs ++ [125])) ++ [13, 10] from by simp]
      rw [← hQl]
      exact List.drop_left _ _
    rw [hdrop]
    simp [findCRLF]
  have hsplice : spliceLen (Q ++ 123 :: (digs ++ [125, 13, 10]))
      (Q.length + digs.length + 2) = some (digitsVal digs) := by
    have := spliceLen_at_header Q digs [13, 10] hne hall
    simp only [List.append_assoc, List.cons_append] at this
    exact this
  have hfeed : Scanner_feed ⟨Q ++ 123 :: (digs ++ [125, 13]),
      Q.length + digs.length + 2, 0⟩ [10]
      = ⟨Q ++ 123 :: (digs ++ [125, 13, 10]), Q.length + digs.length + 2, 0⟩ := by
    simp [Scanner_feed]
  have hloop : scanGetLoop (Q ++ 123 :: (digs ++ [125, 13, 10]))
      ((Q ++ 123 :: (digs ++ [125, 13, 10])).length + 1) (Q.length + digs.length + 2) 0
      = (((Q ++ 123 :: (digs ++ [125, 13, 10])).length - 1, 0),
        .error .incompleteLine) := by
    rw [scanGetLoop]
    rw [if_neg (by simp)]
    rw [Nat.add_zero]
    simp only [hfind]
    simp only [hsplice]
    rw [if_neg (by rw [hzero]; exact Nat.not_lt_zero _)]
    rw [hzero]
    rw [show Q.length + digs.length + 2 + 2
      = (Q ++ 123 :: (digs ++ [125, 13, 10])).length from by rw [hlen2]]
    exact scanGetLoop_at_end_nolit _ _ (by rw [hlen2]; omega) (by rw [hlen2]; omega)
  have hget := Scanner_get_of_loop_err
    ⟨Q ++ 123 :: (digs ++ [125, 13, 10]), Q.length + digs.length + 2, 0⟩ _ _ _ hloop
  rw [driveStep_error vs _ 10 _ _ (by rw [hfeed]; exact hget)]
  rw [hlen2]
  dsimp only
  rw [show Q.length + digs.length + 4 - 1 = Q.length + digs.length + 3 from by omega]

lemma getLast?_append_of_ne_nil (A p : List Nat) (hp : p ≠ []) :
    (A ++ p).getLast? = p.getLast? := by
  rcases List.eq_nil_or_concat p with rfl | ⟨q, y, rfl⟩
  · exact absurd rfl hp
  · simp only [List.concat_eq_append]
    rw [show A ++ (q ++ [y]) = (A ++ q) ++ [y] from by simp]
    rw [List.getLast?_concat, List.getLast?_concat]

/-- Feeding a line's body (all splices, the final visible text and the CR)
byte by byte on top of an already-consumed buffer `B`: every `get` fails, and
the scanner ends with everything buffered and the cursor on the final CR. -/
lemma feedBody :
    ∀ (sps : List Splice) (lastHd B : List Nat) (vs : List (List Nat)),
      sps.all spliceOkB = true →
      boundaryOk sps lastHd = true →
      findCRLF lastHd = none →
      ¬(B.getLast? = some 13 ∧ nextFirstByte sps lastHd = 10) →
      List.foldl driveStep (vs, ⟨B, B.length - 1, 0⟩)
          ((sps.map spliceBytes).flatten ++ (lastHd ++ [13]))
        = (vs, ⟨B ++ ((sps.map spliceBytes).flatten ++ (lastHd ++ [13])),
                (B ++ ((sps.map spliceBytes).flatten ++ (lastHd ++ [13]))).length - 1,
                0⟩) := by
  intro sps
  induction sps with
  | nil =>
    intro lastHd B vs _ _ hlhd hbd
    simp only [List.map_nil, List.flatten_nil, List.nil_append]
    exact feedChunk (lastHd ++ [13]) B vs
      (lastCons_noCRLF B _ (lastChunk_noCRLF lastHd hlhd)
        (fun hc => hbd ⟨hc.1, by
          have h2 := hc.2
          rw [head_lastChunk lastHd] at h2
          simpa using h2⟩))
  | cons sp rest ih =>
    intro lastHd B vs hall hbok hlhd hbd
    have hsp : spliceOkB sp = true := by
      simp only [List.all_cons, Bool.and_eq_true] at hall
      exact hall.1
    have hrest : rest.all spliceOkB = true := by
      simp only [List.all_cons, Bool.and_eq_true] at hall
      exact hall.2
    simp only [spliceOkB, Bool.and_eq_true, Option.isNone_iff_eq_none,
      Bool.not_eq_true', decide_eq_true_eq, beq_iff_eq] at hsp
    obtain ⟨⟨⟨⟨hhd, hne'⟩, hdall⟩, hmax⟩, hplen⟩ := hsp
    have hne : sp.digs ≠ [] := by
      intro hc
      rw [hc] at hne'
      simp at hne'
    simp only [boundaryOk, Bool.and_eq_true, Bool.not_eq_true'] at hbok
    have hbd1 : ¬(sp.payload.getLast? = some 13 ∧ nextFirstByte rest lastHd = 10) := by
      intro hc
      have h1 := hbok.1
      rw [hc.1, hc.2] at h1
      simp at h1
    have hbokrest := hbok.2
    have hlist : (((sp :: rest).map spliceBytes).flatten ++ (lastHd ++ [13]))
        = (sp.hd ++ 123 :: (sp.digs ++ [125, 13]))
          ++ ([10] ++ (sp.payload
            ++ ((rest.map spliceBytes).flatten ++ (lastHd ++ [13])))) := by
      simp [spliceBytes]
    rw [hlist]
    rw [List.foldl_append]
    rw [feedChunk (sp.hd ++ 123 :: (sp.digs ++ [125, 13])) B vs
      (lastCons_noCRLF B _ (chunk1_noCRLF sp.hd sp.digs hhd hdall)
        (fun hc => hbd ⟨hc.1, by
          have h2 := hc.2
          rw [head_chunk1 sp rest lastHd] at h2
          simpa using h2⟩))]
    rw [List.foldl_append]
    simp only [List.foldl_cons, List.foldl_nil]
    have hBlen : (B ++ (sp.hd ++ 123 :: (sp.digs ++ [125, 13]))).length - 1
        = (B ++ sp.hd).length + sp.digs.length + 2 := by
      simp only [List.length_append, List.length_cons, List.length_nil]
      omega
    have hBl : B ++ (sp.hd ++ 123 :: (sp.digs ++ [125, 13]))
        = (B ++ sp.hd) ++ 123 :: (sp.digs ++ [125, 13]) := by simp
    rw [hBlen, hBl]
    by_cases hN : 0 < digitsVal sp.digs
    · rw [feedHeaderLF_pos (B ++ sp.hd) sp.digs vs hne hdall hmax hN]
      rw [List.foldl_append]
      have hpne : sp.payload ≠ [] := by
        intro hc
        rw [hc] at hplen
        simp at hplen
        omega
      have hlit : digitsVal sp.digs = sp.payload.length := hplen.symm
      rw [hlit]
      have hstart : (B ++ sp.hd).length + sp.digs.length + 4
          = ((B ++ sp.hd) ++ 123 :: (sp.digs ++ [125, 13, 10])).length := by
        simp only [List.length_append, List.length_cons, List.length_nil]
        omega
      rw [hstart]
      rw [feedPayload sp.payload
        ((B ++ sp.hd) ++ 123 :: (sp.digs ++ [125, 13, 10])) vs hpne]
      rw [ih lastHd
        (((B ++ sp.hd) ++ 123 :: (sp.digs ++ [125, 13, 10])) ++ sp.payload) vs
        hrest hbokrest hlhd (by
          intro hc
          apply hbd1
          refine ⟨?_, hc.2⟩
          rw [← getLast?_append_of_ne_nil
            ((B ++ sp.hd) ++ 123 :: (sp.digs ++ [125, 13, 10])) sp.payload hpne]
          exact hc.1)]
      simp [spliceBytes]
    · have hN0 : digitsVal sp.digs = 0 := by omega
      rw [feedHeaderLF_zero (B ++ sp.hd) sp.digs vs hne hdall hN0]
      have hp0 : sp.payload = [] := by
        have h1 := hplen
        rw [hN0] at h1
        exact List.length_eq_zero.mp h1
      rw [hp0]
      simp only [List.nil_append]
      have hstart : (B ++ sp.hd).length + sp.digs.length + 3
          = ((B ++ sp.hd) ++ 123 :: (sp.digs ++ [125, 13, 10])).length - 1 := by
        simp only [List.length_append, List.length_cons, List.length_nil]
        omega
      rw [hstart]
      rw [ih lastHd ((B ++ sp.hd) ++ 123 :: (sp.digs ++ [125, 13, 10])) vs
        hrest hbokrest hlhd (by
          intro hc
          have h1 := hc.1
          rw [show ((B ++ sp.hd) ++ 123 :: (sp.digs ++ [125, 13, 10]))
            = ((B ++ sp.hd) ++ 123 :: (sp.digs ++ [125, 13])) ++ [10] from by simp]
            at h1
          rw [List.getLast?_concat] at h1
          simp at h1)]
      simp [spliceBytes, hp0]

/-- Driving one whole legal line from an empty scanner: every intermediate
`get` fails, the final LF makes `get` succeed with exactly the line's bytes,
and the `consume` empties the buffer again. -/
lemma feedLine (L : RLine) (vs : List (List Nat)) (h : legalLine L = true) :
    List.foldl driveStep (vs, ⟨[], 0, 0⟩) (lineBytes L)
      = (vs ++ [lineBytes L], ⟨[], 0, 0⟩) := by
  simp only [legalLine, claimLegalLine, Bool.and_eq_true,
    Option.isNone_iff_eq_none] at h
  obtain ⟨⟨⟨⟨hall, hlhd⟩, _⟩, hbok⟩, hsplen⟩ := h
  have hsplit : lineBytes L
      = ((L.splices.map spliceBytes).flatten ++ (L.lastHd ++ [13])) ++ [10] := by
    simp [lineBytes]
  rw [hsplit]
  rw [List.foldl_append]
  rw [show (⟨[], 0, 0⟩ : Scanner)
    = (⟨([] : List Nat), ([] : List Nat).length - 1, 0⟩ : Scanner) from rfl]
  rw [feedBody L.splices L.lastHd [] vs hall hbok hlhd (by simp)]
  simp only [List.nil_append]
  simp only [List.foldl_cons, List.foldl_nil]
  have hfeed : Scanner_feed
      ⟨(L.splices.map spliceBytes).flatten ++ (L.lastHd ++ [13]),
       ((L.splices.map spliceBytes).flatten ++ (L.lastHd ++ [13])).length - 1, 0⟩ [10]
      = ⟨lineBytes L, (lineBytes L).length - 2, 0⟩ := by
    unfold Scanner_feed
    dsimp only
    rw [hsplit]
    simp only [Scanner.mk.injEq, and_true, true_and]
    simp only [List.length_append, List.length_cons, List.length_nil]
    omega
  have hfind : findCRLFFrom (lineBytes L) ((lineBytes L).length - 2)
      = some ((lineBytes L).length - 2) := by
    unfold findCRLFFrom
    have hdrop : (lineBytes L).drop ((lineBytes L).length - 2) = [13, 10] := by
      have h1 : lineBytes L = ((L.splices.map spliceBytes).flatten ++ L.lastHd) ++ [13, 10] := by
        simp [lineBytes]
      have h2 : (lineBytes L).length - 2
          = ((L.splices.map spliceBytes).flatten ++ L.lastHd).length := by
        rw [h1]
        simp only [List.length_append, List.length_cons, List.length_nil]
        omega
      rw [h2, h1]
      exact List.drop_left _ _
    rw [hdrop]
    simp [findCRLF]
  have hloop : scanGetLoop (lineBytes L) ((lineBytes L).length + 1)
      ((lineBytes L).length - 2) 0
      = (((lineBytes L).length - 2, 0), .ok ((lineBytes L).length - 2)) := by
    rw [scanGetLoop]
    rw [if_neg (by simp)]
    rw [Nat.add_zero]
    simp only [hfind]
    simp only [hsplen]
  have hget0 := Scanner_get_of_loop_ok
    ⟨lineBytes L, (lineBytes L).length - 2, 0⟩ _ _ _ hloop
  have hc2 : (lineBytes L).length - 2 + 2 = (lineBytes L).length := by
    rw [hsplit]
    simp only [List.length_append, List.length_cons, List.length_nil]
    omega
  rw [hc2, List.take_length] at hget0
  have hcons : Scanner_consume ⟨lineBytes L, (lineBytes L).length - 2, 0⟩
      (lineBytes L).length = (⟨[], 0, 0⟩, .ok ()) := by
    unfold Scanner_consume
    dsimp only
    rw [if_neg (by omega)]
    rw [List.drop_length]
  rw [driveStep_ok vs _ 10 ⟨lineBytes L, (lineBytes L).length - 2, 0⟩ (lineBytes L)
    ⟨[], 0, 0⟩ (by rw [hfeed]; exact hget0) hcons]
  rw [← hsplit]
  rfl

/-- C1 (amended): feeding the scanner a server output one byte at a time,
calling `get` after every byte and `consume`-ing each returned view, yields
exactly the sequence of complete response lines and ends with an empty
buffer, for every sequence of lines that is legal in the claim's sense and in
addition (a) exhibits no spurious `{DIGITS}` pattern at its final CRLF in
whole-line context and (b) has no literal payload ending in CR directly
followed by an LF byte (`legalLine`). -/
theorem C1_framing_round_trip :
    ∀ (LS : List RLine), (∀ L ∈ LS, legalLine L = true) →
      drive ((LS.map lineBytes).flatten) = (LS.map lineBytes, ⟨[], 0, 0⟩) := by
  have H : ∀ (LS : List RLine) (vs : List (List Nat)),
      (∀ L ∈ LS, legalLine L = true) →
      List.foldl driveStep (vs, ⟨[], 0, 0⟩) ((LS.map lineBytes).flatten)
        = (vs ++ LS.map lineBytes, ⟨[], 0, 0⟩) := by
    intro LS
    induction LS with
    | nil => intro vs _; simp
    | cons L rest ih =>
      intro vs hall
      simp only [List.map_cons, List.flatten_cons]
      rw [List.foldl_append]
      rw [feedLine L vs (hall L (by simp))]
      rw [ih (vs ++ [lineBytes L]) (fun L2 hL2 => hall L2 (by simp [hL2]))]
      simp
  intro LS h
  unfold drive
  have := H LS [] h
  simpa using this

theorem C1_framing_round_trip_witness :
    (∀ L ∈ ([⟨[⟨[], [49], [88]⟩], []⟩] : List RLine), legalLine L = true) ∧
    drive ((([⟨[⟨[], [49], [88]⟩], []⟩] : List RLine).map lineBytes).flatten)
      = (([⟨[⟨[], [49], [88]⟩], []⟩] : List RLine).map lineBytes, ⟨[], 0, 0⟩) :=
  ⟨by decide, C1_framing_round_trip [⟨[⟨[], [49], [88]⟩], []⟩] (by decide)⟩

end Molino
